import Mathlib

/- Verification development for the QXmppMessage codec
   (src/src/base/QXmppMessage.cpp): a shallow embedding of the message
   record, its XML decoder (QXmppMessage::parse / parseForward) and encoder
   (QXmppMessage::toXml), together with theorems settling the spec's
   testable properties. -/

namespace QXmpp

/- ### Decimal codec used to model datetime (de)serialization.
   QXmppUtils.cpp is not under src/, so `QXmppUtils::datetimeToString` and
   `QXmppUtils::datetimeFromString` are modelled from the spec: instants are
   millisecond counts, the standard serialization has "full
   datetime-with-offset semantics" and is lossless ("optional timestamp
   identical to input precision"), the legacy form "has second-granularity";
   an unparsable value yields an invalid (absent) datetime. -/

def toDigitsF : Nat → Nat → List Nat
  | 0, _ => []
  | _ + 1, 0 => []
  | f + 1, n + 1 => ((n + 1) % 10) :: toDigitsF f ((n + 1) / 10)

/-- Little-endian base-10 digits of a natural number. -/
def natDigits (n : Nat) : List Nat := toDigitsF n n

def ofDigitsLE : List Nat → Nat
  | [] => 0
  | d :: ds => d + 10 * ofDigitsLE ds

def digitChar (d : Nat) : Char := Char.ofNat (48 + d)

def digitVal (c : Char) : Option Nat :=
  if 48 ≤ c.toNat ∧ c.toNat ≤ 57 then some (c.toNat - 48) else none

def digitsOfChars : List Char → Option (List Nat)
  | [] => some []
  | c :: cs =>
    match digitVal c, digitsOfChars cs with
    | some d, some ds => some (d :: ds)
    | _, _ => none

def natToStr (n : Nat) : String :=
  if n = 0 then "0" else String.mk (((natDigits n).map digitChar).reverse)

def strToNat (s : String) : Option Nat :=
  if s.data = [] then none
  else (digitsOfChars s.data).map (fun ds => ofDigitsLE ds.reverse)

theorem ofDigitsLE_toDigitsF : ∀ f n : Nat, n ≤ f → ofDigitsLE (toDigitsF f n) = n := by
  intro f
  induction f with
  | zero => intro n h; interval_cases n; rfl
  | succ f ih =>
    intro n h
    match n with
    | 0 => rfl
    | Nat.succ m =>
      have hdiv : (m + 1) / 10 ≤ f := by
        have : (m + 1) / 10 < m + 1 := Nat.div_lt_self (Nat.succ_pos m) (by norm_num)
        omega
      simp only [toDigitsF, ofDigitsLE, ih _ hdiv]
      omega

theorem toDigitsF_lt : ∀ f n : Nat, ∀ d ∈ toDigitsF f n, d < 10 := by
  intro f
  induction f with
  | zero => intro n d hd; simp [toDigitsF] at hd
  | succ f ih =>
    intro n d hd
    match n with
    | 0 => simp [toDigitsF] at hd
    | Nat.succ m =>
      simp only [toDigitsF, List.mem_cons] at hd
      rcases hd with h | h
      · subst h; exact Nat.mod_lt _ (by norm_num)
      · exact ih _ _ h

theorem digitVal_digitChar (d : Nat) (h : d < 10) : digitVal (digitChar d) = some d := by
  interval_cases d <;> decide

theorem digitsOfChars_map (l : List Nat) (h : ∀ d ∈ l, d < 10) :
    digitsOfChars (l.map digitChar) = some l := by
  induction l with
  | nil => rfl
  | cons d ds ih =>
    simp only [List.map_cons, digitsOfChars]
    rw [digitVal_digitChar d (h d (List.mem_cons_self d ds)),
      ih (fun x hx => h x (List.mem_cons_of_mem d hx))]

theorem natDigits_ne_nil (n : Nat) (h : n ≠ 0) : natDigits n ≠ [] := by
  match n with
  | 0 => exact absurd rfl h
  | Nat.succ m => simp [natDigits, toDigitsF]

theorem strToNat_natToStr (n : Nat) : strToNat (natToStr n) = some n := by
  by_cases h : n = 0
  · subst h; decide
  · have hne : natDigits n ≠ [] := natDigits_ne_nil n h
    have hdata : (natToStr n).data = ((natDigits n).map digitChar).reverse := by
      simp [natToStr, h]
    have hnil : (natToStr n).data ≠ [] := by
      rw [hdata]
      simp only [ne_eq, List.reverse_eq_nil_iff, List.map_eq_nil_iff]
      exact hne
    rw [strToNat, if_neg hnil, hdata, ← List.map_reverse]
    rw [digitsOfChars_map ((natDigits n).reverse)
      (fun d hd => toDigitsF_lt n n d (List.mem_reverse.mp hd))]
    simp only [Option.map_some', List.reverse_reverse, natDigits]
    rw [ofDigitsLE_toDigitsF n n (Nat.le_refl n)]

/-- Modelled from the spec: `QXmppUtils::datetimeToString` (QXmppUtils.cpp is
not under src/); standard delayed-delivery serialization, lossless at
millisecond precision. -/
def datetimeToString (t : Nat) : String := natToStr t

/-- Modelled from the spec: `QXmppUtils::datetimeFromString` (QXmppUtils.cpp
is not under src/); an unparsable string yields an invalid (absent)
datetime. -/
def datetimeFromString (s : String) : Option Nat := strToNat s

/-- Modelled from the spec: the legacy delay serialization
`utcStamp.toString("yyyyMMddThh:mm:ss")` has second granularity. -/
def legacyStampToString (t : Nat) : String := natToStr (t / 1000)

/-- Modelled from the spec: `QDateTime::fromString(str, "yyyyMMddThh:mm:ss")`
parses a second-granularity stamp; an unparsable string yields an invalid
(absent) datetime. -/
def legacyStampFromString (s : String) : Option Nat := (strToNat s).map (· * 1000)

theorem datetime_roundtrip (t : Nat) : datetimeFromString (datetimeToString t) = some t :=
  strToNat_natToStr t

theorem legacyStamp_roundtrip (t : Nat) (h : t % 1000 = 0) :
    legacyStampFromString (legacyStampToString t) = some t := by
  rw [legacyStampToString, legacyStampFromString, strToNat_natToStr]
  simp only [Option.map_some']
  congr 1
  omega

/- ### The markup element model (QDomElement as materialized by the external
   XML layer).  An element has a tag name, a namespace URI, attributes,
   child elements, and its own character data (`content`).  A null
   QDomElement is modelled as `none : Option XElem`; Qt's accessors on a
   null element return null/empty values, which the `...O` helpers mirror. -/

inductive XElem where
  | mk (tag ns : String) (attrs : List (String × String)) (children : List XElem)
      (content : String)

def XElem.tag : XElem → String
  | .mk t _ _ _ _ => t

def XElem.ns : XElem → String
  | .mk _ n _ _ _ => n

def XElem.attrs : XElem → List (String × String)
  | .mk _ _ a _ _ => a

def XElem.children : XElem → List XElem
  | .mk _ _ _ c _ => c

def XElem.content : XElem → String
  | .mk _ _ _ _ s => s

@[simp] theorem XElem.tag_mk (t n : String) (a : List (String × String))
    (c : List XElem) (s : String) : (XElem.mk t n a c s).tag = t := rfl

@[simp] theorem XElem.ns_mk (t n : String) (a : List (String × String))
    (c : List XElem) (s : String) : (XElem.mk t n a c s).ns = n := rfl

@[simp] theorem XElem.attrs_mk (t n : String) (a : List (String × String))
    (c : List XElem) (s : String) : (XElem.mk t n a c s).attrs = a := rfl

@[simp] theorem XElem.children_mk (t n : String) (a : List (String × String))
    (c : List XElem) (s : String) : (XElem.mk t n a c s).children = c := rfl

@[simp] theorem XElem.content_mk (t n : String) (a : List (String × String))
    (c : List XElem) (s : String) : (XElem.mk t n a c s).content = s := rfl

/-- QDomElement::attribute with empty-string default. -/
def XElem.attr (e : XElem) (name : String) : String :=
  match e.attrs.find? (fun p => p.1 == name) with
  | some p => p.2
  | none => ""

/-- Attribute of a possibly-null element (null yields the empty default). -/
def attrO (oe : Option XElem) (name : String) : String :=
  match oe with
  | none => ""
  | some e => e.attr name

/-- namespaceURI of a possibly-null element (null yields the empty string). -/
def nsO (oe : Option XElem) : String :=
  match oe with
  | none => ""
  | some e => e.ns

/-- QDomElement::firstChildElement: first child element with the given tag
name, regardless of namespace; null in, null out. -/
def fce (oe : Option XElem) (name : String) : Option XElem :=
  match oe with
  | none => none
  | some e => e.children.find? (fun c => c.tag == name)

def childrenO (oe : Option XElem) : List XElem :=
  match oe with
  | none => []
  | some e => e.children

mutual

/-- Number of element nodes of the tree; used as recursion fuel. -/
def XElem.weight : XElem → Nat
  | .mk _ _ _ c _ => weightList c + 1

def weightList : List XElem → Nat
  | [] => 0
  | e :: es => XElem.weight e + weightList es

end

/-- QDomElement::text concatenates the character data of the element and its
descendants; fuel-bounded recursion, the wrapper supplies sufficient fuel. -/
def textOfF : Nat → XElem → String
  | 0, e => e.content
  | f + 1, e => e.children.foldl (fun acc c => acc ++ textOfF f c) e.content

def XElem.text (e : XElem) : String := textOfF (e.weight + 1) e

def textO (oe : Option XElem) : String :=
  match oe with
  | none => ""
  | some e => e.text

/- ### String helpers mirroring the Qt operations used by the XHTML-IM
   extraction (QString::mid/indexOf, QString::replace, QString::trimmed) and
   QDomElement::save. -/

def isSpaceChar (c : Char) : Bool :=
  c == ' ' || c == '\t' || c == '\n' || c == '\r'

def strTrim (s : String) : String :=
  String.mk (((s.data.dropWhile isSpaceChar).reverse.dropWhile isSpaceChar).reverse)

/-- Replace every occurrence of `pat` (left to right, non-overlapping);
fuel-bounded, the wrapper supplies fuel covering the whole input (the
patterns used by the codec are non-empty literals). -/
def replAllF : Nat → List Char → List Char → List Char → List Char
  | 0, _, _, l => l
  | _ + 1, _, _, [] => []
  | f + 1, pat, repl, c :: cs =>
    if pat.isPrefixOf (c :: cs) then
      repl ++ replAllF f pat repl (List.drop pat.length (c :: cs))
    else
      c :: replAllF f pat repl cs

def strReplaceAll (s pat repl : String) : String :=
  String.mk (replAllF s.data.length pat.data repl.data s.data)

def afterFirstGt : List Char → Option (List Char)
  | [] => none
  | c :: cs => if c = '>' then some cs else afterFirstGt cs

/-- QString::mid(indexOf of the closing angle bracket + 1): drops everything
through the first closing angle bracket; if there is none, indexOf yields -1
and mid(0) returns the whole string. -/
def dropThroughGt (s : String) : String :=
  match afterFirstGt s.data with
  | some r => String.mk r
  | none => s

/-- QDomElement::save with indent 0: start tag with xmlns declaration and
attributes, character data, children, end tag.  Fuel-bounded recursion. -/
def serializeF : Nat → XElem → String
  | 0, _ => ""
  | f + 1, e =>
    "<" ++ e.tag ++ (if e.ns != "" then " xmlns=\"" ++ e.ns ++ "\"" else "")
      ++ e.attrs.foldl (fun acc p => acc ++ " " ++ p.1 ++ "=\"" ++ p.2 ++ "\"") ""
      ++ ">"
      ++ e.children.foldl (fun acc c => acc ++ serializeF f c) e.content
      ++ "</" ++ e.tag ++ ">"

def serializeElem (e : XElem) : String := serializeF (e.weight + 1) e

/- ### Extension value types (QXmppMessage.h enums) and the parallel
   enum-to-string tables of QXmppMessage.cpp. -/

inductive MsgType where
  | error | normal | chat | groupchat | headline
deriving DecidableEq

inductive StampType where
  | legacyDelayedDelivery | delayedDelivery
deriving DecidableEq

inductive ChatState where
  | stateNone | active | inactive | gone | composing | paused
deriving DecidableEq

inductive Marker where
  | noMarker | received | displayed | acknowledged
deriving DecidableEq

inductive Hint where
  | noPermanentStorage | noStore | noCopy | allowPermanentStorage
deriving DecidableEq

/-- The `message_types` table. -/
def messageTypeName : MsgType → String
  | .error => "error"
  | .normal => "normal"
  | .chat => "chat"
  | .groupchat => "groupchat"
  | .headline => "headline"

/-- The `chat_states` table (index 0 is the empty name for State::None). -/
def chatStateName : ChatState → String
  | .stateNone => ""
  | .active => "active"
  | .inactive => "inactive"
  | .gone => "gone"
  | .composing => "composing"
  | .paused => "paused"

/-- The `marker_types` table (index 0 is the empty name for NoMarker). -/
def markerName : Marker → String
  | .noMarker => ""
  | .received => "received"
  | .displayed => "displayed"
  | .acknowledged => "acknowledged"

/-- The `hint_types` table. -/
def hintName : Hint → String
  | .noPermanentStorage => "no-permanent-storage"
  | .noStore => "no-store"
  | .noCopy => "no-copy"
  | .allowPermanentStorage => "allow-permanent-storage"

/- ### Namespace constants.  QXmppConstants.h / QXmppConstants.cpp are not
   under src/; the constants are modelled from the spec as the distinct
   namespace URIs of the protocol extensions named there (values are the
   standard XMPP namespace URIs; only their identity/distinctness matters). -/

def ns_chat_states : String := "http://jabber.org/protocol/chatstates"
def ns_xhtml_im : String := "http://jabber.org/protocol/xhtml-im"
def ns_xhtml : String := "http://www.w3.org/1999/xhtml"
def ns_message_receipts : String := "urn:xmpp:receipts"
def ns_delayed_delivery : String := "urn:xmpp:delay"
def ns_legacy_delayed_delivery : String := "jabber:x:delay"
def ns_stanza_forwarding : String := "urn:xmpp:forward:0"
def ns_simple_archive : String := "urn:xmpp:mam:tmp"
def ns_message_carbons : String := "urn:xmpp:carbons:2"
def ns_attention : String := "urn:xmpp:attention:0"
def ns_message_processing_hints : String := "urn:xmpp:hints"
def ns_chat_markers : String := "urn:xmpp:chat-markers:0"
def ns_replace_message : String := "urn:xmpp:message-correct:0"
def ns_conference : String := "jabber:x:conference"
def ns_muc_user : String := "http://jabber.org/protocol/muc#user"

/- ### The Message Record: QXmppMessagePrivate plus the base-stanza fields
   consumed from the external collaborator (from/to/id/lang).  The three
   recursively nested records (QSharedPointer members, deep-copied by the
   setters) force `Message` to be an inductive wrapping the plain core. -/

structure MessageCore where
  typ : MsgType
  stamp : Option Nat
  stampType : StampType
  state : ChatState
  attentionRequested : Bool
  body : String
  subject : String
  thread : String
  xhtml : String
  receiptId : String
  receiptRequested : Bool
  mucInvitationJid : String
  mucInvitationPassword : String
  mucInvitationReason : String
  mucInvitationDirect : Bool
  hints : List Hint
  markable : Bool
  marker : Marker
  markedId : String
  markedThread : String
  replace : Bool
  replaceId : String
  sFrom : String
  sTo : String
  sId : String
  sLang : String
  extensions : List XElem

inductive Message where
  | mk (core : MessageCore) (forwardedM mamM carbonM : Option Message)

def Message.core : Message → MessageCore
  | .mk c _ _ _ => c

def Message.forwardedM : Message → Option Message
  | .mk _ f _ _ => f

def Message.mamM : Message → Option Message
  | .mk _ _ m _ => m

def Message.carbonM : Message → Option Message
  | .mk _ _ _ c => c

@[simp] theorem Message.core_mk (c : MessageCore) (f m cb : Option Message) :
    (Message.mk c f m cb).core = c := rfl

@[simp] theorem Message.forwardedM_mk (c : MessageCore) (f m cb : Option Message) :
    (Message.mk c f m cb).forwardedM = f := rfl

@[simp] theorem Message.mamM_mk (c : MessageCore) (f m cb : Option Message) :
    (Message.mk c f m cb).mamM = m := rfl

@[simp] theorem Message.carbonM_mk (c : MessageCore) (f m cb : Option Message) :
    (Message.mk c f m cb).carbonM = cb := rfl

/-- The QXmppMessage constructor defaults (QXmppMessage::QXmppMessage with
empty arguments): type Chat, standard stamp type, no state, nothing
requested, direct MUC invitation form; all other members are
default-constructed (null strings, null QDateTime, empty list). -/
def defaultCore : MessageCore where
  typ := .chat
  stamp := none
  stampType := .delayedDelivery
  state := .stateNone
  attentionRequested := false
  body := ""
  subject := ""
  thread := ""
  xhtml := ""
  receiptId := ""
  receiptRequested := false
  mucInvitationJid := ""
  mucInvitationPassword := ""
  mucInvitationReason := ""
  mucInvitationDirect := true
  hints := []
  markable := false
  marker := .noMarker
  markedId := ""
  markedThread := ""
  replace := false
  replaceId := ""
  sFrom := ""
  sTo := ""
  sId := ""
  sLang := ""
  extensions := []

def defaultMessage : Message := .mk defaultCore none none none

def Message.typ (m : Message) : MsgType := m.core.typ

def Message.stamp (m : Message) : Option Nat := m.core.stamp

def Message.stampType (m : Message) : StampType := m.core.stampType

def Message.state (m : Message) : ChatState := m.core.state

def Message.isAttentionRequested (m : Message) : Bool := m.core.attentionRequested

def Message.body (m : Message) : String := m.core.body

def Message.subject (m : Message) : String := m.core.subject

def Message.thread (m : Message) : String := m.core.thread

def Message.xhtml (m : Message) : String := m.core.xhtml

def Message.receiptId (m : Message) : String := m.core.receiptId

def Message.isReceiptRequested (m : Message) : Bool := m.core.receiptRequested

def Message.mucInvitationJid (m : Message) : String := m.core.mucInvitationJid

def Message.mucInvitationPassword (m : Message) : String := m.core.mucInvitationPassword

def Message.mucInvitationReason (m : Message) : String := m.core.mucInvitationReason

def Message.mucInvitationDirect (m : Message) : Bool := m.core.mucInvitationDirect

def Message.hints (m : Message) : List Hint := m.core.hints

def Message.isMarkable (m : Message) : Bool := m.core.markable

def Message.marker (m : Message) : Marker := m.core.marker

def Message.markedId (m : Message) : String := m.core.markedId

def Message.markedThread (m : Message) : String := m.core.markedThread

def Message.isReplace (m : Message) : Bool := m.core.replace

def Message.replaceId (m : Message) : String := m.core.replaceId

def Message.sFrom (m : Message) : String := m.core.sFrom

def Message.sTo (m : Message) : String := m.core.sTo

def Message.sId (m : Message) : String := m.core.sId

def Message.sLang (m : Message) : String := m.core.sLang

def Message.extensions (m : Message) : List XElem := m.core.extensions

/-- QXmppMessage::hasForwarded. -/
def Message.hasForwarded (m : Message) : Bool := m.forwardedM.isSome

/-- QXmppMessage::forwarded: a default-constructed record when absent. -/
def Message.forwarded (m : Message) : Message :=
  match m.forwardedM with
  | none => defaultMessage
  | some f => f

/-- QXmppMessage::setForwarded (stores a fresh deep copy). -/
def Message.setForwarded (m fwd : Message) : Message :=
  .mk m.core (some fwd) m.mamM m.carbonM

/-- QXmppMessage::hasMaMMessage. -/
def Message.hasMaMMessage (m : Message) : Bool := m.mamM.isSome

/-- QXmppMessage::mamMessage: a default-constructed record when absent. -/
def Message.mamMessage (m : Message) : Message :=
  match m.mamM with
  | none => defaultMessage
  | some f => f

/-- QXmppMessage::setMaMMessage. -/
def Message.setMaMMessage (m msg : Message) : Message :=
  .mk m.core m.forwardedM (some msg) m.carbonM

/-- QXmppMessage::hasMessageCarbon. -/
def Message.hasMessageCarbon (m : Message) : Bool := m.carbonM.isSome

/-- QXmppMessage::carbonMessage: a default-constructed record when absent. -/
def Message.carbonMessage (m : Message) : Message :=
  match m.carbonM with
  | none => defaultMessage
  | some f => f

/-- QXmppMessage::setMessagecarbon. -/
def Message.setMessagecarbon (m msg : Message) : Message :=
  .mk m.core m.forwardedM m.mamM (some msg)

/-- Modelled from the spec: `QXmppStanza::generateAndSetNextId`
(QXmppStanza.cpp is not under src/), the base-stanza collaborator's
"assign-default-id-if-absent" operation: assigns a fresh generated id
(a fixed prefix plus a monotone counter) and bumps the counter. -/
def generateAndSetNextId (m : Message) (ctr : Nat) : Message × Nat :=
  (.mk { m.core with sId := "qxmpp" ++ natToStr ctr } m.forwardedM m.mamM m.carbonM,
    ctr + 1)

/-- QXmppMessage::setReceiptRequested: records the flag and, when requesting
while no id exists, assigns a generated id.  The id-generation counter is
global state in the collaborator; it is threaded explicitly. -/
def Message.setReceiptRequested (m : Message) (requested : Bool) (ctr : Nat) :
    Message × Nat :=
  let m1 : Message := .mk { m.core with receiptRequested := requested }
    m.forwardedM m.mamM m.carbonM
  if requested && (m1.sId == "") then generateAndSetNextId m1 ctr else (m1, ctr)

/- ### Decoder (QXmppMessage::parse / QXmppMessage::parseForward). -/

/-- The `knownMessageSubelems` list: the (name, namespace) pairs the
catch-all loop treats as claimed (an empty namespace means any namespace). -/
def knownMessageSubelems : List (String × String) :=
  [("body", ""), ("subject", ""), ("thread", ""), ("html", ""),
    ("received", ns_message_receipts), ("request", ""), ("delay", ""),
    ("attention", ""), ("addresses", "")]
  ++ [ChatState.active, .inactive, .gone, .composing, .paused].map
      (fun st => (chatStateName st, ""))

/-- Resolution of the `type` attribute: first matching table entry in
enumeration order, defaulting to Normal when absent or unrecognized. -/
def typeFromString (s : String) : MsgType :=
  if s == "error" then .error
  else if s == "normal" then .normal
  else if s == "chat" then .chat
  else if s == "groupchat" then .groupchat
  else if s == "headline" then .headline
  else .normal

/-- The chat-state loop: first element name in enumeration order whose
element is present and carries the chat-states namespace. -/
def chatStateScan (oe : Option XElem) : Option ChatState :=
  [ChatState.active, .inactive, .gone, .composing, .paused].find?
    (fun st =>
      let e := fce oe (chatStateName st)
      e.isSome && (nsO e == ns_chat_states))

/-- The chat-marker loop: scans received/displayed/acknowledged in
enumeration order, breaking on the first namespace-correct match; the
returned element is the last one assigned (mirroring the loop variable). -/
def markerScan (oe : Option XElem) : Marker × Option XElem :=
  let e1 := fce oe "received"
  if e1.isSome && (nsO e1 == ns_chat_markers) then (.received, e1)
  else
    let e2 := fce oe "displayed"
    if e2.isSome && (nsO e2 == ns_chat_markers) then (.displayed, e2)
    else
      let e3 := fce oe "acknowledged"
      if e3.isSome && (nsO e3 == ns_chat_markers) then (.acknowledged, e3)
      else (.noMarker, e3)

/-- The hint loop: each hint name present with the processing-hints
namespace is appended, in enumeration order. -/
def hintScan (oe : Option XElem) : List Hint :=
  [Hint.noPermanentStorage, .noStore, .noCopy, .allowPermanentStorage].filter
    (fun h =>
      let e := fce oe (hintName h)
      e.isSome && (nsO e == ns_message_processing_hints))

def xhtmlXmlnsDecl : String := " xmlns=\"http://www.w3.org/1999/xhtml\""

def closeBodyTag : String := "</body>"

/-- The XHTML-IM extraction applied to the located body element: serialize
it, strip everything through the first closing angle bracket, remove the
xmlns declaration and the body end tags, and trim whitespace. -/
def xhtmlExtract (b : XElem) : String :=
  strTrim (strReplaceAll
    (strReplaceAll (dropThroughGt (serializeElem b)) xhtmlXmlnsDecl "")
    closeBodyTag "")

/-- State mutated by the final catch-all child loop: the legacy-delay and
MUC-invitation fields it may assign, and the accumulated extensions. -/
structure ParseTail where
  stamp : Option Nat
  stampType : StampType
  mucInvitationJid : String
  mucInvitationPassword : String
  mucInvitationReason : String
  exts : List XElem

/-- One iteration of the catch-all child loop. -/
def catchStep (s : ParseTail) (c : XElem) : ParseTail :=
  if c.tag == "x" then
    if c.ns == ns_legacy_delayed_delivery then
      if s.stamp.isNone then
        { s with
          stamp := legacyStampFromString (c.attr "stamp")
          stampType := .legacyDelayedDelivery }
      else s
    else if c.ns == ns_conference then
      { s with
        mucInvitationJid := c.attr "jid"
        mucInvitationPassword := c.attr "password"
        mucInvitationReason := c.attr "reason" }
    else { s with exts := s.exts ++ [c] }
  else
    if knownMessageSubelems.contains (c.tag, c.ns)
        || knownMessageSubelems.contains (c.tag, "") then s
    else { s with exts := s.exts ++ [c] }

def catchAll (cs : List XElem) (s : ParseTail) : ParseTail := cs.foldl catchStep s

mutual

/-- QXmppMessage::parse, translated statement by statement; `init` is the
record the member function mutates (a default-constructed one at both call
sites).  Recursion into nested forwarded messages is fuel-bounded; the
wrappers supply fuel sufficient for the input tree. -/
def parseF : Nat → Option XElem → Message → Message
  | 0, _, _ => defaultMessage
  | f + 1, oe, init =>
    -- QXmppStanza::parse (modelled from the spec: base-stanza attributes)
    let sFromV := attrO oe "from"
    let sToV := attrO oe "to"
    let sIdV := attrO oe "id"
    let sLangV := attrO oe "xml:lang"
    -- message type
    let typV := typeFromString (attrO oe "type")
    -- body / subject / thread
    let bodyV := textO (fce oe "body")
    let subjectV := textO (fce oe "subject")
    let threadV := textO (fce oe "thread")
    -- chat states
    let stateV := match chatStateScan oe with
      | some st => st
      | none => init.core.state
    -- XEP-0071: XHTML-IM
    let xhtmlV := match fce oe "html" with
      | some h =>
        if h.ns == ns_xhtml_im then
          match fce (some h) "body" with
          | some b => if b.ns == ns_xhtml then xhtmlExtract b else init.core.xhtml
          | none => init.core.xhtml
        else init.core.xhtml
      | none => init.core.xhtml
    -- XEP-0184: Message Delivery Receipts
    let rcv := fce oe "received"
    let receiptIdV :=
      if rcv.isSome && (nsO rcv == ns_message_receipts) then
        let rid := attrO rcv "id"
        if rid == "" then sIdV else rid
      else ""
    let receiptRequestedV := nsO (fce oe "request") == ns_message_receipts
    -- XEP-0203: Delayed Delivery
    let del := fce oe "delay"
    let stampPair :=
      if del.isSome && (nsO del == ns_delayed_delivery) then
        (datetimeFromString (attrO del "stamp"), StampType.delayedDelivery)
      else (init.core.stamp, init.core.stampType)
    -- XEP-0313: archived message
    let mamV : Option Message :=
      match fce oe "result" with
      | some res =>
        if res.ns == ns_simple_archive then
          match fce (some res) "forwarded" with
          | some fw =>
            if fw.ns == ns_stanza_forwarding then some (parseForwardF f (some fw))
            else init.mamM
          | none => init.mamM
        else init.mamM
      | none => init.mamM
    -- XEP-0280: message carbons ("received", then "sent")
    let carb1 : Option Message :=
      match fce oe "received" with
      | some cr =>
        if cr.ns == ns_message_carbons then
          match fce (some cr) "forwarded" with
          | some fw =>
            if fw.ns == ns_stanza_forwarding then some (parseForwardF f (some fw))
            else init.carbonM
          | none => init.carbonM
        else init.carbonM
      | none => init.carbonM
    let carbV : Option Message :=
      match fce oe "sent" with
      | some cr =>
        if cr.ns == ns_message_carbons then
          match fce (some cr) "forwarded" with
          | some fw =>
            if fw.ns == ns_stanza_forwarding then some (parseForwardF f (some fw))
            else carb1
          | none => carb1
        else carb1
      | none => carb1
    -- XEP-0297: direct forwarding
    let fwdV : Option Message :=
      match fce oe "forwarded" with
      | some fw =>
        if fw.ns == ns_stanza_forwarding then some (parseForwardF f (some fw))
        else init.forwardedM
      | none => init.forwardedM
    -- XEP-0224: Attention
    let attentionV := nsO (fce oe "attention") == ns_attention
    -- XEP-0334: Message Processing Hints
    let hintsV := init.core.hints ++ hintScan oe
    -- XEP-0333: Chat Markers
    let markableV := if (fce oe "markable").isSome then true else init.core.markable
    let ms := markerScan oe
    let markerTriple :=
      if ms.2.isSome && (nsO ms.2 == ns_chat_markers) then
        (ms.1, attrO ms.2 "id", attrO ms.2 "thread")
      else (init.core.marker, init.core.markedId, init.core.markedThread)
    -- XEP-0308: Last Message Correction
    let replacePair :=
      match fce oe "replace" with
      | some rep =>
        if rep.ns == ns_replace_message then (true, rep.attr "id")
        else (init.core.replace, init.core.replaceId)
      | none => (init.core.replace, init.core.replaceId)
    -- catch-all child loop (legacy delay, MUC invitation, unknown extensions)
    let tail := catchAll (childrenO oe)
      { stamp := stampPair.1, stampType := stampPair.2,
        mucInvitationJid := init.core.mucInvitationJid,
        mucInvitationPassword := init.core.mucInvitationPassword,
        mucInvitationReason := init.core.mucInvitationReason,
        exts := [] }
    Message.mk
      { typ := typV
        stamp := tail.stamp
        stampType := tail.stampType
        state := stateV
        attentionRequested := attentionV
        body := bodyV
        subject := subjectV
        thread := threadV
        xhtml := xhtmlV
        receiptId := receiptIdV
        receiptRequested := receiptRequestedV
        mucInvitationJid := tail.mucInvitationJid
        mucInvitationPassword := tail.mucInvitationPassword
        mucInvitationReason := tail.mucInvitationReason
        mucInvitationDirect := init.core.mucInvitationDirect
        hints := hintsV
        markable := markableV
        marker := markerTriple.1
        markedId := markerTriple.2.1
        markedThread := markerTriple.2.2
        replace := replacePair.1
        replaceId := replacePair.2
        sFrom := sFromV
        sTo := sToV
        sId := sIdV
        sLang := sLangV
        extensions := tail.exts }
      fwdV mamV carbV

/-- QXmppMessage::parseForward: a forwarded element yields the full parse of
its "message" child (a null child parses like a null element), with a
"delay"/delayed-delivery child overriding the inner record's timestamp;
a non-forwarding element yields the default-constructed result. -/
def parseForwardF : Nat → Option XElem → Message
  | 0, _ => defaultMessage
  | f + 1, oe =>
    if oe.isSome && (nsO oe == ns_stanza_forwarding) then
      let fwd := parseF f (fce oe "message") defaultMessage
      match fce oe "delay" with
      | some delE =>
        if delE.ns == ns_delayed_delivery then
          Message.mk
            { fwd.core with
              stamp := datetimeFromString (delE.attr "stamp")
              stampType := .delayedDelivery }
            fwd.forwardedM fwd.mamM fwd.carbonM
        else fwd
      | none => fwd
    else defaultMessage

end

/-- Fuel budget: the catch-all recursions descend at least one tree level
per two fuel units, so twice the node count plus one always suffices. -/
def sizeO (oe : Option XElem) : Nat :=
  match oe with
  | none => 0
  | some e => e.weight

/-- QXmppMessage::parse on a possibly-null element, mutating `init`. -/
def parseMessage (oe : Option XElem) (init : Message) : Message :=
  parseF (2 * sizeO oe + 1) oe init

/-- Decoding entry point: default-construct a record, then parse into it. -/
def decodeMessage (oe : Option XElem) : Message :=
  parseMessage oe defaultMessage

/-- QXmppMessage::parseForward on a possibly-null element. -/
def parseForwardE (oe : Option XElem) : Message :=
  parseForwardF (2 * sizeO oe + 1) oe

/- ### Encoder (QXmppMessage::toXml).  The stream-writer calls are modelled
   as construction of the message element tree; helperToXmlAddAttribute
   skips empty values (`optionalAttr`). -/

def optionalAttr (name value : String) : List (String × String) :=
  if value != "" then [(name, value)] else []

def optionalElem (b : Bool) (e : XElem) : List XElem :=
  if b then [e] else []

/-- helperToXmlAddTextElement: an element holding only character data. -/
def textElem (tag s : String) : XElem := .mk tag "" [] [] s

/-- Chat-state element, written only when the state is strictly between
None (exclusive) and Paused (inclusive), i.e. any state but None. -/
def stateElems (st : ChatState) : List XElem :=
  if st != .stateNone then [XElem.mk (chatStateName st) ns_chat_states [] [] ""]
  else []

/-- The XHTML-IM body wrapper: the xhtml markup is written as raw bytes
inside the body element. -/
def xhtmlBodyElem (x : String) : XElem := .mk "body" ns_xhtml [] [] x

/-- Timestamp element: standard delay form or legacy x form per stampType,
written only for a valid stamp. -/
def stampElems (stamp : Option Nat) (st : StampType) : List XElem :=
  match stamp with
  | none => []
  | some t =>
    if st == .delayedDelivery then
      [XElem.mk "delay" ns_delayed_delivery
        (optionalAttr "stamp" (datetimeToString t)) [] ""]
    else
      [XElem.mk "x" ns_legacy_delayed_delivery
        (optionalAttr "stamp" (legacyStampToString t)) [] ""]

def hintElem (h : Hint) : XElem :=
  .mk (hintName h) ns_message_processing_hints [] [] ""

/-- MUC invitation: direct form (single x element with attributes) or
indirect form (x wrapping an invite child with a reason text child). -/
def mucElems (c : MessageCore) : List XElem :=
  if c.mucInvitationJid != "" then
    if c.mucInvitationDirect then
      [XElem.mk "x" ns_conference
        ([("jid", c.mucInvitationJid)]
          ++ optionalAttr "password" c.mucInvitationPassword
          ++ optionalAttr "reason" c.mucInvitationReason)
        [] ""]
    else
      [XElem.mk "x" ns_muc_user []
        [XElem.mk "invite" "" [("to", c.mucInvitationJid)]
          [textElem "reason" c.mucInvitationReason] ""]
        ""]
  else []

/-- Chat-marker element: id attribute always written, thread only when
non-empty. -/
def markerElems (c : MessageCore) : List XElem :=
  if c.marker != .noMarker then
    [XElem.mk (markerName c.marker) ns_chat_markers
      ([("id", c.markedId)] ++ optionalAttr "thread" c.markedThread) [] ""]
  else []

def msgAttrs (c : MessageCore) : List (String × String) :=
  optionalAttr "xml:lang" c.sLang ++ optionalAttr "id" c.sId
    ++ optionalAttr "to" c.sTo ++ optionalAttr "from" c.sFrom
    ++ optionalAttr "type" (messageTypeName c.typ)

/-- The canonical child order of QXmppMessage::toXml.  The base-stanza
error payload (written between thread and the chat state) belongs to the
external collaborator and is not modelled.  Note the encoder never emits
the nested forwarded/archived/carbon records. -/
def msgChildren (c : MessageCore) : List XElem :=
  optionalElem (c.subject != "") (textElem "subject" c.subject)
  ++ optionalElem (c.body != "") (textElem "body" c.body)
  ++ optionalElem (c.thread != "") (textElem "thread" c.thread)
  ++ stateElems c.state
  ++ optionalElem (c.xhtml != "")
      (XElem.mk "html" ns_xhtml_im [] [xhtmlBodyElem c.xhtml] "")
  ++ stampElems c.stamp c.stampType
  ++ optionalElem (c.receiptId != "")
      (XElem.mk "received" ns_message_receipts [("id", c.receiptId)] [] "")
  ++ optionalElem c.receiptRequested (XElem.mk "request" ns_message_receipts [] [] "")
  ++ optionalElem c.attentionRequested (XElem.mk "attention" ns_attention [] [] "")
  ++ mucElems c
  ++ c.hints.map hintElem
  ++ optionalElem c.markable (XElem.mk "markable" ns_chat_markers [] [] "")
  ++ markerElems c
  ++ optionalElem (c.replace && c.body == "") (textElem "body" "")
  ++ optionalElem c.replace
      (XElem.mk "replace" ns_replace_message [("id", c.replaceId)] [] "")
  ++ c.extensions

/-- QXmppMessage::toXml as element-tree construction. -/
def Message.toXml (m : Message) : XElem :=
  .mk "message" "" (msgAttrs m.core) (msgChildren m.core) ""

/-- Canonical form of a hint list: the hint enumeration filtered to the
members of the list (the order and multiplicity the decode loop produces). -/
def canonicalHints (l : List Hint) : List Hint :=
  [Hint.noPermanentStorage, .noStore, .noCopy, .allowPermanentStorage].filter
    (fun h => decide (h ∈ l))

/-- Agreement of two message records on every known field (everything the
model represents except the unknown-extension passthrough list). -/
def knownFieldsAgree (a b : Message) : Prop :=
  a.typ = b.typ ∧ a.stamp = b.stamp ∧ a.stampType = b.stampType
    ∧ a.state = b.state
    ∧ a.isAttentionRequested = b.isAttentionRequested ∧ a.body = b.body
    ∧ a.subject = b.subject ∧ a.thread = b.thread ∧ a.xhtml = b.xhtml
    ∧ a.receiptId = b.receiptId ∧ a.isReceiptRequested = b.isReceiptRequested
    ∧ a.mucInvitationJid = b.mucInvitationJid
    ∧ a.mucInvitationPassword = b.mucInvitationPassword
    ∧ a.mucInvitationReason = b.mucInvitationReason
    ∧ a.mucInvitationDirect = b.mucInvitationDirect
    ∧ a.hints = b.hints ∧ a.isMarkable = b.isMarkable ∧ a.marker = b.marker
    ∧ a.markedId = b.markedId ∧ a.markedThread = b.markedThread
    ∧ a.isReplace = b.isReplace ∧ a.replaceId = b.replaceId
    ∧ a.sFrom = b.sFrom ∧ a.sTo = b.sTo ∧ a.sId = b.sId ∧ a.sLang = b.sLang
    ∧ a.forwardedM = b.forwardedM ∧ a.mamM = b.mamM ∧ a.carbonM = b.carbonM

/- ### Infrastructure lemmas: child lookups over the encoder's segmented
   child list, and the effect of the catch-all loop. -/

theorem find?_optionalElem (p : XElem → Bool) (b : Bool) (e : XElem) :
    List.find? p (optionalElem b e) = if b then (if p e then some e else none) else none := by
  cases b
  · simp [optionalElem]
  · simp only [optionalElem, if_true, List.find?_cons]
    split <;> simp_all

theorem find?_append_none {p : XElem → Bool} {l1 l2 : List XElem}
    (h : List.find? p l1 = none) :
    List.find? p (l1 ++ l2) = List.find? p l2 := by
  rw [List.find?_append, h, Option.none_or]

theorem find?_append_some {p : XElem → Bool} {l1 l2 : List XElem} {e : XElem}
    (h : List.find? p l1 = some e) :
    List.find? p (l1 ++ l2) = some e := by
  rw [List.find?_append, h]
  rfl

theorem find?_skip {p : XElem → Bool} {l1 : List XElem} (l2 : List XElem)
    (h : ∀ e ∈ l1, p e = false) :
    List.find? p (l1 ++ l2) = List.find? p l2 :=
  find?_append_none (List.find?_eq_none.mpr (fun e he => by simp [h e he]))

theorem find?_optionalElem_neg {p : XElem → Bool} {e : XElem} (b : Bool)
    (l : List XElem) (h : p e = false) :
    List.find? p (optionalElem b e ++ l) = List.find? p l := by
  refine find?_skip l (fun x hx => ?_)
  cases b <;> simp [optionalElem] at hx
  · exact hx ▸ h

theorem tag_textElem (t s : String) : (textElem t s).tag = t := rfl

theorem mem_stateElems {st : ChatState} {e : XElem} (he : e ∈ stateElems st) :
    e.tag = chatStateName st ∧ e.ns = ns_chat_states ∧ st ≠ .stateNone := by
  cases st <;> simp [stateElems] at he <;> simp [he, chatStateName]

theorem mem_stampElems {stamp : Option Nat} {st : StampType} {e : XElem}
    (he : e ∈ stampElems stamp st) :
    e.tag = "delay" ∨ e.tag = "x" := by
  match stamp with
  | none => simp [stampElems] at he
  | some t =>
    cases st <;> simp [stampElems] at he <;> simp [he]

theorem mem_mucElems {c : MessageCore} {e : XElem} (he : e ∈ mucElems c) :
    e.tag = "x" := by
  by_cases hj : c.mucInvitationJid != ""
  · rw [mucElems, if_pos hj] at he
    cases hd : c.mucInvitationDirect <;> rw [hd] at he <;> simp at he <;> simp [he]
  · rw [mucElems, if_neg hj] at he
    simp at he

theorem mem_hintsMap {l : List Hint} {e : XElem} (he : e ∈ l.map hintElem) :
    ∃ h, e = hintElem h := by
  simp only [List.mem_map] at he
  obtain ⟨h, -, rfl⟩ := he
  exact ⟨h, rfl⟩

theorem mem_markerElems {c : MessageCore} {e : XElem} (he : e ∈ markerElems c) :
    e.tag = markerName c.marker ∧ e.ns = ns_chat_markers ∧ c.marker ≠ .noMarker := by
  by_cases hm : c.marker != .noMarker
  · rw [markerElems, if_pos hm] at he
    simp at he
    simp [he]
    simpa using hm
  · rw [markerElems, if_neg hm] at he
    simp at he

/-- The quintuple of ParseTail components other than the extension list. -/
def tailCore (s : ParseTail) :
    Option Nat × StampType × String × String × String :=
  (s.stamp, s.stampType, s.mucInvitationJid, s.mucInvitationPassword,
    s.mucInvitationReason)

theorem catchAll_append (l1 l2 : List XElem) (s : ParseTail) :
    catchAll (l1 ++ l2) s = catchAll l2 (catchAll l1 s) :=
  List.foldl_append catchStep s l1 l2

theorem catchStep_nonx {c : XElem} (s : ParseTail) (h : (c.tag == "x") = false) :
    tailCore (catchStep s c) = tailCore s := by
  rw [catchStep, if_neg (by simp_all)]
  split <;> rfl

theorem catchAll_nonx {l : List XElem} (s : ParseTail)
    (h : ∀ c ∈ l, (c.tag == "x") = false) :
    tailCore (catchAll l s) = tailCore s := by
  induction l generalizing s with
  | nil => rfl
  | cons c cs ih =>
    rw [catchAll, List.foldl_cons]
    rw [show List.foldl catchStep (catchStep s c) cs = catchAll cs (catchStep s c) from rfl]
    rw [ih (catchStep s c) (fun x hx => h x (List.mem_cons_of_mem c hx))]
    exact catchStep_nonx s (h c (List.mem_cons_self c cs))

theorem catchStep_stamp_some {s : ParseTail} {t : Nat} (c : XElem)
    (h : s.stamp = some t) :
    (catchStep s c).stamp = some t ∧ (catchStep s c).stampType = s.stampType := by
  rw [catchStep]
  split
  · split
    · rw [if_neg (by simp [h])]
      exact ⟨h, rfl⟩
    · split <;> exact ⟨h, rfl⟩
  · split <;> exact ⟨h, rfl⟩

theorem catchAll_stamp_some {l : List XElem} {s : ParseTail} {t : Nat}
    (h : s.stamp = some t) :
    (catchAll l s).stamp = some t ∧ (catchAll l s).stampType = s.stampType := by
  induction l generalizing s with
  | nil => exact ⟨h, rfl⟩
  | cons c cs ih =>
    rw [catchAll, List.foldl_cons]
    have step := @catchStep_stamp_some s t c h
    have := @ih (catchStep s c) step.1
    exact ⟨this.1, this.2.trans step.2⟩

theorem skip_stateElems {T : String} {st : ChatState} (l : List XElem)
    (h : (["active", "inactive", "gone", "composing", "paused"] : List String).contains T
      = false) :
    List.find? (fun x => x.tag == T) (stateElems st ++ l)
      = List.find? (fun x => x.tag == T) l := by
  refine find?_skip l (fun e he => ?_)
  obtain ⟨ht, -, hne⟩ := mem_stateElems he
  cases st <;> simp_all [chatStateName] <;> (intro hq; subst hq; simp_all)

theorem skip_stampElems {T : String} {stamp : Option Nat} {st : StampType}
    (l : List XElem)
    (h : (["delay", "x"] : List String).contains T = false) :
    List.find? (fun x => x.tag == T) (stampElems stamp st ++ l)
      = List.find? (fun x => x.tag == T) l := by
  refine find?_skip l (fun e he => ?_)
  rcases mem_stampElems he with ht | ht <;> simp_all <;> (intro hq; subst hq; simp_all)

theorem skip_mucElems {T : String} {c : MessageCore} (l : List XElem)
    (h : (T == "x") = false) :
    List.find? (fun x => x.tag == T) (mucElems c ++ l)
      = List.find? (fun x => x.tag == T) l := by
  refine find?_skip l (fun e he => ?_)
  have ht := mem_mucElems he
  simp_all [BEq.comm]

theorem skip_hintsMap {T : String} {hs : List Hint} (l : List XElem)
    (h : (["no-permanent-storage", "no-store", "no-copy", "allow-permanent-storage"]
      : List String).contains T = false) :
    List.find? (fun x => x.tag == T) (hs.map hintElem ++ l)
      = List.find? (fun x => x.tag == T) l := by
  refine find?_skip l (fun e he => ?_)
  obtain ⟨hh, rfl⟩ := mem_hintsMap he
  cases hh <;> simp_all [hintElem, hintName] <;> (intro hq; subst hq; simp_all)

theorem skip_markerElems {T : String} {c : MessageCore} (l : List XElem)
    (h : (["received", "displayed", "acknowledged"] : List String).contains T = false) :
    List.find? (fun x => x.tag == T) (markerElems c ++ l)
      = List.find? (fun x => x.tag == T) l := by
  refine find?_skip l (fun e he => ?_)
  obtain ⟨ht, -, hne⟩ := mem_markerElems he
  cases hm : c.marker <;> simp_all [markerName] <;> (intro hq; subst hq; simp_all)

theorem find?_optionalElem_pos {p : XElem → Bool} {e : XElem} (b : Bool)
    (l : List XElem) (h : p e = true) :
    List.find? p (optionalElem b e ++ l) = if b then some e else List.find? p l := by
  cases b <;> simp [optionalElem, List.find?_cons, h]

theorem find?_optionalAttr_neg {name : String} (n v : String)
    (l : List (String × String)) (h : (n == name) = false) :
    List.find? (fun p => p.1 == name) (optionalAttr n v ++ l)
      = List.find? (fun p => p.1 == name) l := by
  unfold optionalAttr
  split <;> simp [List.find?_cons, h]

theorem find?_optionalAttr_pos {name : String} (v : String)
    (l : List (String × String)) :
    List.find? (fun p => p.1 == name) (optionalAttr name v ++ l)
      = if v != "" then some (name, v) else List.find? (fun p => p.1 == name) l := by
  unfold optionalAttr
  split <;> simp [List.find?_cons]

theorem natToStr_ne_empty (n : Nat) : natToStr n ≠ "" := by
  by_cases h : n = 0
  · subst h; decide
  · rw [natToStr, if_neg h]
    intro hc
    apply natDigits_ne_nil n h
    have hd := congrArg String.data hc
    simpa using hd

theorem textO_textElem (t s : String) : textO (some (textElem t s)) = s := rfl

theorem attr_head_hit (T n nm v : String) (rest : List (String × String))
    (cs : List XElem) (ct : String) :
    (XElem.mk T n ((nm, v) :: rest) cs ct).attr nm = v := by
  simp [XElem.attr, List.find?_cons]

theorem attr_marker_thread (T n mid mth : String) :
    (XElem.mk T n ([("id", mid)] ++ optionalAttr "thread" mth) [] "").attr "thread"
      = mth := by
  by_cases hm : mth = "" <;>
    simp [XElem.attr, optionalAttr, hm, List.find?_cons]

theorem attr_muc_password (j pw re : String) :
    (XElem.mk "x" ns_conference
      ([("jid", j)] ++ optionalAttr "password" pw ++ optionalAttr "reason" re)
      [] "").attr "password" = pw := by
  by_cases hp : pw = "" <;> by_cases hr : re = "" <;>
    simp [XElem.attr, optionalAttr, hp, hr, List.find?_cons]

theorem attr_muc_reason (j pw re : String) :
    (XElem.mk "x" ns_conference
      ([("jid", j)] ++ optionalAttr "password" pw ++ optionalAttr "reason" re)
      [] "").attr "reason" = re := by
  by_cases hp : pw = "" <;> by_cases hr : re = "" <;>
    simp [XElem.attr, optionalAttr, hp, hr, List.find?_cons]

theorem find?_markerElems_received (c : MessageCore) (l : List XElem) :
    List.find? (fun x => x.tag == "received") (markerElems c ++ l)
      = if c.marker = .received then
          some (XElem.mk "received" ns_chat_markers
            ([("id", c.markedId)] ++ optionalAttr "thread" c.markedThread) [] "")
        else List.find? (fun x => x.tag == "received") l := by
  cases hm : c.marker <;>
    simp [markerElems, markerName, hm, List.find?_cons]

theorem find?_markerElems_displayed (c : MessageCore) (l : List XElem) :
    List.find? (fun x => x.tag == "displayed") (markerElems c ++ l)
      = if c.marker = .displayed then
          some (XElem.mk "displayed" ns_chat_markers
            ([("id", c.markedId)] ++ optionalAttr "thread" c.markedThread) [] "")
        else List.find? (fun x => x.tag == "displayed") l := by
  cases hm : c.marker <;>
    simp [markerElems, markerName, hm, List.find?_cons]

theorem find?_markerElems_acknowledged (c : MessageCore) (l : List XElem) :
    List.find? (fun x => x.tag == "acknowledged") (markerElems c ++ l)
      = if c.marker = .acknowledged then
          some (XElem.mk "acknowledged" ns_chat_markers
            ([("id", c.markedId)] ++ optionalAttr "thread" c.markedThread) [] "")
        else List.find? (fun x => x.tag == "acknowledged") l := by
  cases hm : c.marker <;>
    simp [markerElems, markerName, hm, List.find?_cons]

theorem hintName_beq (a b : Hint) : (hintName a == hintName b) = (a == b) := by
  cases a <;> cases b <;> decide

theorem find?_hintsMap (hs : List Hint) (h : Hint) (l : List XElem) :
    List.find? (fun x => x.tag == hintName h) (hs.map hintElem ++ l)
      = if hs.contains h then some (hintElem h)
        else List.find? (fun x => x.tag == hintName h) l := by
  induction hs with
  | nil => simp
  | cons h' t ih =>
    simp only [List.map_cons, List.cons_append, List.find?_cons]
    have : ((hintElem h').tag == hintName h) = (h' == h) := by
      simpa [hintElem] using hintName_beq h' h
    rw [this]
    by_cases hb : h' = h
    · subst hb
      simp [hintElem]
    · have h1 : (h' == h) = false := by simp [hb]
      have h2 : (h == h') = false := by simp [Ne.symm hb]
      rw [h1, ih]
      simp only [List.contains_cons, h2, Bool.false_or]

theorem find?_stateElems_hit (st stq : ChatState) (h : stq ≠ .stateNone)
    (l : List XElem) :
    List.find? (fun x => x.tag == chatStateName stq) (stateElems st ++ l)
      = if st = stq then
          some (XElem.mk (chatStateName stq) ns_chat_states [] [] "")
        else List.find? (fun x => x.tag == chatStateName stq) l := by
  cases st <;> cases stq <;>
    simp_all [stateElems, chatStateName, List.find?_cons]

theorem find?_msg_subject (c : MessageCore) (hext : c.extensions = []) :
    List.find? (fun x => x.tag == "subject") (msgChildren c)
      = if c.subject != "" then some (textElem "subject" c.subject) else none := by
  rw [msgChildren, hext]
  simp only [List.append_assoc, List.append_nil]
  rw [find?_optionalElem_pos _ _ (by rfl)]
  rw [find?_optionalElem_neg _ _ (by rfl)]
  rw [find?_optionalElem_neg _ _ (by rfl)]
  rw [skip_stateElems _ (by decide)]
  rw [find?_optionalElem_neg _ _ (by rfl)]
  rw [skip_stampElems _ (by decide)]
  rw [find?_optionalElem_neg _ _ (by rfl)]
  rw [find?_optionalElem_neg _ _ (by rfl)]
  rw [find?_optionalElem_neg _ _ (by rfl)]
  rw [skip_mucElems _ (by decide)]
  rw [skip_hintsMap _ (by decide)]
  rw [find?_optionalElem_neg _ _ (by rfl)]
  rw [skip_markerElems _ (by decide)]
  rw [find?_optionalElem_neg _ _ (by rfl)]
  simp [find?_optionalElem]

theorem find?_msg_body (c : MessageCore) (hext : c.extensions = []) :
    List.find? (fun x => x.tag == "body") (msgChildren c)
      = if c.body != "" then some (textElem "body" c.body)
        else if c.replace && (c.body == "") then some (textElem "body" "") else none := by
  rw [msgChildren, hext]
  simp only [List.append_assoc, List.append_nil]
  rw [find?_optionalElem_neg _ _ (by rfl)]
  rw [find?_optionalElem_pos _ _ (by rfl)]
  rw [find?_optionalElem_neg _ _ (by rfl)]
  rw [skip_stateElems _ (by decide)]
  rw [find?_optionalElem_neg _ _ (by rfl)]
  rw [skip_stampElems _ (by decide)]
  rw [find?_optionalElem_neg _ _ (by rfl)]
  rw [find?_optionalElem_neg _ _ (by rfl)]
  rw [find?_optionalElem_neg _ _ (by rfl)]
  rw [skip_mucElems _ (by decide)]
  rw [skip_hintsMap _ (by decide)]
  rw [find?_optionalElem_neg _ _ (by rfl)]
  rw [skip_markerElems _ (by decide)]
  rw [find?_optionalElem_pos _ _ (by rfl)]
  simp [find?_optionalElem]

theorem find?_msg_thread (c : MessageCore) (hext : c.extensions = []) :
    List.find? (fun x => x.tag == "thread") (msgChildren c)
      = if c.thread != "" then some (textElem "thread" c.thread) else none := by
  rw [msgChildren, hext]
  simp only [List.append_assoc, List.append_nil]
  rw [find?_optionalElem_neg _ _ (by rfl)]
  rw [find?_optionalElem_neg _ _ (by rfl)]
  rw [find?_optionalElem_pos _ _ (by rfl)]
  rw [skip_stateElems _ (by decide)]
  rw [find?_optionalElem_neg _ _ (by rfl)]
  rw [skip_stampElems _ (by decide)]
  rw [find?_optionalElem_neg _ _ (by rfl)]
  rw [find?_optionalElem_neg _ _ (by rfl)]
  rw [find?_optionalElem_neg _ _ (by rfl)]
  rw [skip_mucElems _ (by decide)]
  rw [skip_hintsMap _ (by decide)]
  rw [find?_optionalElem_neg _ _ (by rfl)]
  rw [skip_markerElems _ (by decide)]
  rw [find?_optionalElem_neg _ _ (by rfl)]
  simp [find?_optionalElem]

theorem find?_msg_html (c : MessageCore) (hext : c.extensions = []) :
    List.find? (fun x => x.tag == "html") (msgChildren c)
      = if c.xhtml != "" then
          some (XElem.mk "html" ns_xhtml_im [] [xhtmlBodyElem c.xhtml] "")
        else none := by
  rw [msgChildren, hext]
  simp only [List.append_assoc, List.append_nil]
  rw [find?_optionalElem_neg _ _ (by rfl)]
  rw [find?_optionalElem_neg _ _ (by rfl)]
  rw [find?_optionalElem_neg _ _ (by rfl)]
  rw [skip_stateElems _ (by decide)]
  rw [find?_optionalElem_pos _ _ (by rfl)]
  rw [skip_stampElems _ (by decide)]
  rw [find?_optionalElem_neg _ _ (by rfl)]
  rw [find?_optionalElem_neg _ _ (by rfl)]
  rw [find?_optionalElem_neg _ _ (by rfl)]
  rw [skip_mucElems _ (by decide)]
  rw [skip_hintsMap _ (by decide)]
  rw [find?_optionalElem_neg _ _ (by rfl)]
  rw [skip_markerElems _ (by decide)]
  rw [find?_optionalElem_neg _ _ (by rfl)]
  simp [find?_optionalElem]

theorem find?_msg_received (c : MessageCore) (hext : c.extensions = []) :
    List.find? (fun x => x.tag == "received") (msgChildren c)
      = if c.receiptId != "" then
          some (XElem.mk "received" ns_message_receipts [("id", c.receiptId)] [] "")
        else if c.marker = .received then
          some (XElem.mk "received" ns_chat_markers
            ([("id", c.markedId)] ++ optionalAttr "thread" c.markedThread) [] "")
        else none := by
  rw [msgChildren, hext]
  simp only [List.append_assoc, List.append_nil]
  rw [find?_optionalElem_neg _ _ (by rfl)]
  rw [find?_optionalElem_neg _ _ (by rfl)]
  rw [find?_optionalElem_neg _ _ (by rfl)]
  rw [skip_stateElems _ (by decide)]
  rw [find?_optionalElem_neg _ _ (by rfl)]
  rw [skip_stampElems _ (by decide)]
  rw [find?_optionalElem_pos _ _ (by rfl)]
  rw [find?_optionalElem_neg _ _ (by rfl)]
  rw [find?_optionalElem_neg _ _ (by rfl)]
  rw [skip_mucElems _ (by decide)]
  rw [skip_hintsMap _ (by decide)]
  rw [find?_optionalElem_neg _ _ (by rfl)]
  rw [find?_markerElems_received]
  rw [find?_optionalElem_neg _ _ (by rfl)]
  simp [find?_optionalElem]

theorem find?_msg_request (c : MessageCore) (hext : c.extensions = []) :
    List.find? (fun x => x.tag == "request") (msgChildren c)
      = if c.receiptRequested then
          some (XElem.mk "request" ns_message_receipts [] [] "")
        else none := by
  rw [msgChildren, hext]
  simp only [List.append_assoc, List.append_nil]
  rw [find?_optionalElem_neg _ _ (by rfl)]
  rw [find?_optionalElem_neg _ _ (by rfl)]
  rw [find?_optionalElem_neg _ _ (by rfl)]
  rw [skip_stateElems _ (by decide)]
  rw [find?_optionalElem_neg _ _ (by rfl)]
  rw [skip_stampElems _ (by decide)]
  rw [find?_optionalElem_neg _ _ (by rfl)]
  rw [find?_optionalElem_pos _ _ (by rfl)]
  rw [find?_optionalElem_neg _ _ (by rfl)]
  rw [skip_mucElems _ (by decide)]
  rw [skip_hintsMap _ (by decide)]
  rw [find?_optionalElem_neg _ _ (by rfl)]
  rw [skip_markerElems _ (by decide)]
  rw [find?_optionalElem_neg _ _ (by rfl)]
  simp [find?_optionalElem]

theorem find?_msg_attention (c : MessageCore) (hext : c.extensions = []) :
    List.find? (fun x => x.tag == "attention") (msgChildren c)
      = if c.attentionRequested then
          some (XElem.mk "attention" ns_attention [] [] "")
        else none := by
  rw [msgChildren, hext]
  simp only [List.append_assoc, List.append_nil]
  rw [find?_optionalElem_neg _ _ (by rfl)]
  rw [find?_optionalElem_neg _ _ (by rfl)]
  rw [find?_optionalElem_neg _ _ (by rfl)]
  rw [skip_stateElems _ (by decide)]
  rw [find?_optionalElem_neg _ _ (by rfl)]
  rw [skip_stampElems _ (by decide)]
  rw [find?_optionalElem_neg _ _ (by rfl)]
  rw [find?_optionalElem_neg _ _ (by rfl)]
  rw [find?_optionalElem_pos _ _ (by rfl)]
  rw [skip_mucElems _ (by decide)]
  rw [skip_hintsMap _ (by decide)]
  rw [find?_optionalElem_neg _ _ (by rfl)]
  rw [skip_markerElems _ (by decide)]
  rw [find?_optionalElem_neg _ _ (by rfl)]
  simp [find?_optionalElem]

theorem find?_msg_markable (c : MessageCore) (hext : c.extensions = []) :
    List.find? (fun x => x.tag == "markable") (msgChildren c)
      = if c.markable then
          some (XElem.mk "markable" ns_chat_markers [] [] "")
        else none := by
  rw [msgChildren, hext]
  simp only [List.append_assoc, List.append_nil]
  rw [find?_optionalElem_neg _ _ (by rfl)]
  rw [find?_optionalElem_neg _ _ (by rfl)]
  rw [find?_optionalElem_neg _ _ (by rfl)]
  rw [skip_stateElems _ (by decide)]
  rw [find?_optionalElem_neg _ _ (by rfl)]
  rw [skip_stampElems _ (by decide)]
  rw [find?_optionalElem_neg _ _ (by rfl)]
  rw [find?_optionalElem_neg _ _ (by rfl)]
  rw [find?_optionalElem_neg _ _ (by rfl)]
  rw [skip_mucElems _ (by decide)]
  rw [skip_hintsMap _ (by decide)]
  rw [find?_optionalElem_pos _ _ (by rfl)]
  rw [skip_markerElems _ (by decide)]
  rw [find?_optionalElem_neg _ _ (by rfl)]
  simp [find?_optionalElem]

theorem find?_msg_displayed (c : MessageCore) (hext : c.extensions = []) :
    List.find? (fun x => x.tag == "displayed") (msgChildren c)
      = if c.marker = .displayed then
          some (XElem.mk "displayed" ns_chat_markers
            ([("id", c.markedId)] ++ optionalAttr "thread" c.markedThread) [] "")
        else none := by
  rw [msgChildren, hext]
  simp only [List.append_assoc, List.append_nil]
  rw [find?_optionalElem_neg _ _ (by rfl)]
  rw [find?_optionalElem_neg _ _ (by rfl)]
  rw [find?_optionalElem_neg _ _ (by rfl)]
  rw [skip_stateElems _ (by decide)]
  rw [find?_optionalElem_neg _ _ (by rfl)]
  rw [skip_stampElems _ (by decide)]
  rw [find?_optionalElem_neg _ _ (by rfl)]
  rw [find?_optionalElem_neg _ _ (by rfl)]
  rw [find?_optionalElem_neg _ _ (by rfl)]
  rw [skip_mucElems _ (by decide)]
  rw [skip_hintsMap _ (by decide)]
  rw [find?_optionalElem_neg _ _ (by rfl)]
  rw [find?_markerElems_displayed]
  rw [find?_optionalElem_neg _ _ (by rfl)]
  simp [find?_optionalElem]

theorem find?_msg_acknowledged (c : MessageCore) (hext : c.extensions = []) :
    List.find? (fun x => x.tag == "acknowledged") (msgChildren c)
      = if c.marker = .acknowledged then
          some (XElem.mk "acknowledged" ns_chat_markers
            ([("id", c.markedId)] ++ optionalAttr "thread" c.markedThread) [] "")
        else none := by
  rw [msgChildren, hext]
  simp only [List.append_assoc, List.append_nil]
  rw [find?_optionalElem_neg _ _ (by rfl)]
  rw [find?_optionalElem_neg _ _ (by rfl)]
  rw [find?_optionalElem_neg _ _ (by rfl)]
  rw [skip_stateElems _ (by decide)]
  rw [find?_optionalElem_neg _ _ (by rfl)]
  rw [skip_stampElems _ (by decide)]
  rw [find?_optionalElem_neg _ _ (by rfl)]
  rw [find?_optionalElem_neg _ _ (by rfl)]
  rw [find?_optionalElem_neg _ _ (by rfl)]
  rw [skip_mucElems _ (by decide)]
  rw [skip_hintsMap _ (by decide)]
  rw [find?_optionalElem_neg _ _ (by rfl)]
  rw [find?_markerElems_acknowledged]
  rw [find?_optionalElem_neg _ _ (by rfl)]
  simp [find?_optionalElem]

theorem find?_msg_replace (c : MessageCore) (hext : c.extensions = []) :
    List.find? (fun x => x.tag == "replace") (msgChildren c)
      = if c.replace then
          some (XElem.mk "replace" ns_replace_message [("id", c.replaceId)] [] "")
        else none := by
  rw [msgChildren, hext]
  simp only [List.append_assoc, List.append_nil]
  rw [find?_optionalElem_neg _ _ (by rfl)]
  rw [find?_optionalElem_neg _ _ (by rfl)]
  rw [find?_optionalElem_neg _ _ (by rfl)]
  rw [skip_stateElems _ (by decide)]
  rw [find?_optionalElem_neg _ _ (by rfl)]
  rw [skip_stampElems _ (by decide)]
  rw [find?_optionalElem_neg _ _ (by rfl)]
  rw [find?_optionalElem_neg _ _ (by rfl)]
  rw [find?_optionalElem_neg _ _ (by rfl)]
  rw [skip_mucElems _ (by decide)]
  rw [skip_hintsMap _ (by decide)]
  rw [find?_optionalElem_neg _ _ (by rfl)]
  rw [skip_markerElems _ (by decide)]
  rw [find?_optionalElem_neg _ _ (by rfl)]
  simp [find?_optionalElem]

theorem find?_msg_result (c : MessageCore) (hext : c.extensions = []) :
    List.find? (fun x => x.tag == "result") (msgChildren c) = none := by
  rw [msgChildren, hext]
  simp only [List.append_assoc, List.append_nil]
  rw [find?_optionalElem_neg _ _ (by rfl)]
  rw [find?_optionalElem_neg _ _ (by rfl)]
  rw [find?_optionalElem_neg _ _ (by rfl)]
  rw [skip_stateElems _ (by decide)]
  rw [find?_optionalElem_neg _ _ (by rfl)]
  rw [skip_stampElems _ (by decide)]
  rw [find?_optionalElem_neg _ _ (by rfl)]
  rw [find?_optionalElem_neg _ _ (by rfl)]
  rw [find?_optionalElem_neg _ _ (by rfl)]
  rw [skip_mucElems _ (by decide)]
  rw [skip_hintsMap _ (by decide)]
  rw [find?_optionalElem_neg _ _ (by rfl)]
  rw [skip_markerElems _ (by decide)]
  rw [find?_optionalElem_neg _ _ (by rfl)]
  simp [find?_optionalElem]

theorem find?_msg_sent (c : MessageCore) (hext : c.extensions = []) :
    List.find? (fun x => x.tag == "sent") (msgChildren c) = none := by
  rw [msgChildren, hext]
  simp only [List.append_assoc, List.append_nil]
  rw [find?_optionalElem_neg _ _ (by rfl)]
  rw [find?_optionalElem_neg _ _ (by rfl)]
  rw [find?_optionalElem_neg _ _ (by rfl)]
  rw [skip_stateElems _ (by decide)]
  rw [find?_optionalElem_neg _ _ (by rfl)]
  rw [skip_stampElems _ (by decide)]
  rw [find?_optionalElem_neg _ _ (by rfl)]
  rw [find?_optionalElem_neg _ _ (by rfl)]
  rw [find?_optionalElem_neg _ _ (by rfl)]
  rw [skip_mucElems _ (by decide)]
  rw [skip_hintsMap _ (by decide)]
  rw [find?_optionalElem_neg _ _ (by rfl)]
  rw [skip_markerElems _ (by decide)]
  rw [find?_optionalElem_neg _ _ (by rfl)]
  simp [find?_optionalElem]

theorem find?_msg_forwarded (c : MessageCore) (hext : c.extensions = []) :
    List.find? (fun x => x.tag == "forwarded") (msgChildren c) = none := by
  rw [msgChildren, hext]
  simp only [List.append_assoc, List.append_nil]
  rw [find?_optionalElem_neg _ _ (by rfl)]
  rw [find?_optionalElem_neg _ _ (by rfl)]
  rw [find?_optionalElem_neg _ _ (by rfl)]
  rw [skip_stateElems _ (by decide)]
  rw [find?_optionalElem_neg _ _ (by rfl)]
  rw [skip_stampElems _ (by decide)]
  rw [find?_optionalElem_neg _ _ (by rfl)]
  rw [find?_optionalElem_neg _ _ (by rfl)]
  rw [find?_optionalElem_neg _ _ (by rfl)]
  rw [skip_mucElems _ (by decide)]
  rw [skip_hintsMap _ (by decide)]
  rw [find?_optionalElem_neg _ _ (by rfl)]
  rw [skip_markerElems _ (by decide)]
  rw [find?_optionalElem_neg _ _ (by rfl)]
  simp [find?_optionalElem]

theorem find?_msg_stateName (c : MessageCore) (hext : c.extensions = []) (stq : ChatState)
    (h : stq ≠ .stateNone) :
    List.find? (fun x => x.tag == chatStateName stq) (msgChildren c)
      = if c.state = stq then
          some (XElem.mk (chatStateName stq) ns_chat_states [] [] "")
        else none := by
  rw [msgChildren, hext]
  simp only [List.append_assoc, List.append_nil]
  rw [find?_optionalElem_neg _ _ (by cases stq <;> rfl)]
  rw [find?_optionalElem_neg _ _ (by cases stq <;> rfl)]
  rw [find?_optionalElem_neg _ _ (by cases stq <;> rfl)]
  rw [find?_stateElems_hit _ stq h]
  rw [find?_optionalElem_neg _ _ (by cases stq <;> rfl)]
  rw [skip_stampElems _ (by cases stq <;> decide)]
  rw [find?_optionalElem_neg _ _ (by cases stq <;> rfl)]
  rw [find?_optionalElem_neg _ _ (by cases stq <;> rfl)]
  rw [find?_optionalElem_neg _ _ (by cases stq <;> rfl)]
  rw [skip_mucElems _ (by cases stq <;> decide)]
  rw [skip_hintsMap _ (by cases stq <;> decide)]
  rw [find?_optionalElem_neg _ _ (by cases stq <;> rfl)]
  rw [skip_markerElems _ (by cases stq <;> decide)]
  rw [find?_optionalElem_neg _ _ (by cases stq <;> rfl)]
  simp only [find?_optionalElem]
  cases stq <;> simp [chatStateName]

theorem find?_msg_hint (c : MessageCore) (hext : c.extensions = []) (hq : Hint) :
    List.find? (fun x => x.tag == hintName hq) (msgChildren c)
      = if c.hints.contains hq then some (hintElem hq) else none := by
  rw [msgChildren, hext]
  simp only [List.append_assoc, List.append_nil]
  rw [find?_optionalElem_neg _ _ (by cases hq <;> rfl)]
  rw [find?_optionalElem_neg _ _ (by cases hq <;> rfl)]
  rw [find?_optionalElem_neg _ _ (by cases hq <;> rfl)]
  rw [skip_stateElems _ (by cases hq <;> decide)]
  rw [find?_optionalElem_neg _ _ (by cases hq <;> rfl)]
  rw [skip_stampElems _ (by cases hq <;> decide)]
  rw [find?_optionalElem_neg _ _ (by cases hq <;> rfl)]
  rw [find?_optionalElem_neg _ _ (by cases hq <;> rfl)]
  rw [find?_optionalElem_neg _ _ (by cases hq <;> rfl)]
  rw [skip_mucElems _ (by cases hq <;> decide)]
  rw [find?_hintsMap]
  rw [find?_optionalElem_neg _ _ (by cases hq <;> rfl)]
  rw [skip_markerElems _ (by cases hq <;> decide)]
  rw [find?_optionalElem_neg _ _ (by cases hq <;> rfl)]
  simp only [find?_optionalElem]
  cases hq <;> simp [hintName]

theorem find?_msg_delay (c : MessageCore) (hext : c.extensions = []) :
    List.find? (fun x => x.tag == "delay") (msgChildren c)
      = match c.stamp, c.stampType with
        | some t, .delayedDelivery =>
          some (XElem.mk "delay" ns_delayed_delivery
            (optionalAttr "stamp" (datetimeToString t)) [] "")
        | _, _ => none := by
  rw [msgChildren, hext]
  simp only [List.append_assoc, List.append_nil]
  rw [find?_optionalElem_neg _ _ (by rfl)]
  rw [find?_optionalElem_neg _ _ (by rfl)]
  rw [find?_optionalElem_neg _ _ (by rfl)]
  rw [skip_stateElems _ (by decide)]
  rw [find?_optionalElem_neg _ _ (by rfl)]
  rcases hs : c.stamp with - | t
  · cases hst : c.stampType <;>
      (simp only [stampElems, List.nil_append]
       rw [find?_optionalElem_neg _ _ (by rfl)]
       rw [find?_optionalElem_neg _ _ (by rfl)]
       rw [find?_optionalElem_neg _ _ (by rfl)]
       rw [skip_mucElems _ (by decide)]
       rw [skip_hintsMap _ (by decide)]
       rw [find?_optionalElem_neg _ _ (by rfl)]
       rw [skip_markerElems _ (by decide)]
       rw [find?_optionalElem_neg _ _ (by rfl)]
       simp [find?_optionalElem])
  · cases hst : c.stampType
    · simp only [stampElems]
      rw [if_neg (by decide)]
      simp only [List.cons_append, List.find?_cons]
      rw [show (((XElem.mk "x" ns_legacy_delayed_delivery
        (optionalAttr "stamp" (legacyStampToString t)) [] "").tag == "delay") : Bool)
        = false from rfl]
      simp only [Bool.false_eq_true, if_false, List.nil_append]
      rw [find?_optionalElem_neg _ _ (by rfl)]
      rw [find?_optionalElem_neg _ _ (by rfl)]
      rw [find?_optionalElem_neg _ _ (by rfl)]
      rw [skip_mucElems _ (by decide)]
      rw [skip_hintsMap _ (by decide)]
      rw [find?_optionalElem_neg _ _ (by rfl)]
      rw [skip_markerElems _ (by decide)]
      rw [find?_optionalElem_neg _ _ (by rfl)]
      simp [find?_optionalElem]
    · simp only [stampElems]
      rw [if_pos (by decide)]
      simp only [List.cons_append, List.find?_cons]
      rfl


theorem find?_optionalAttr_none {name : String} (n v : String)
    (h : (n == name) = false) :
    List.find? (fun p => p.1 == name) (optionalAttr n v) = none := by
  unfold optionalAttr
  split <;> simp [List.find?_cons, h]

theorem messageTypeName_ne_empty (t : MsgType) : (messageTypeName t != "") = true := by
  cases t <;> decide

theorem attr_msg_lang (c : MessageCore) :
    (XElem.mk "message" "" (msgAttrs c) (msgChildren c) "").attr "xml:lang" = c.sLang := by
  rw [XElem.attr]
  simp only [XElem.attrs_mk, msgAttrs, List.append_assoc]
  rw [find?_optionalAttr_pos, find?_optionalAttr_neg _ _ _ (by rfl),
    find?_optionalAttr_neg _ _ _ (by rfl), find?_optionalAttr_neg _ _ _ (by rfl),
    find?_optionalAttr_none _ _ (by rfl)]
  by_cases hv : c.sLang = "" <;> simp [hv]

theorem attr_msg_id (c : MessageCore) :
    (XElem.mk "message" "" (msgAttrs c) (msgChildren c) "").attr "id" = c.sId := by
  rw [XElem.attr]
  simp only [XElem.attrs_mk, msgAttrs, List.append_assoc]
  rw [find?_optionalAttr_neg _ _ _ (by rfl), find?_optionalAttr_pos,
    find?_optionalAttr_neg _ _ _ (by rfl), find?_optionalAttr_neg _ _ _ (by rfl),
    find?_optionalAttr_none _ _ (by rfl)]
  by_cases hv : c.sId = "" <;> simp [hv]

theorem attr_msg_to (c : MessageCore) :
    (XElem.mk "message" "" (msgAttrs c) (msgChildren c) "").attr "to" = c.sTo := by
  rw [XElem.attr]
  simp only [XElem.attrs_mk, msgAttrs, List.append_assoc]
  rw [find?_optionalAttr_neg _ _ _ (by rfl), find?_optionalAttr_neg _ _ _ (by rfl),
    find?_optionalAttr_pos, find?_optionalAttr_neg _ _ _ (by rfl),
    find?_optionalAttr_none _ _ (by rfl)]
  by_cases hv : c.sTo = "" <;> simp [hv]

theorem attr_msg_from (c : MessageCore) :
    (XElem.mk "message" "" (msgAttrs c) (msgChildren c) "").attr "from" = c.sFrom := by
  rw [XElem.attr]
  simp only [XElem.attrs_mk, msgAttrs, List.append_assoc]
  rw [find?_optionalAttr_neg _ _ _ (by rfl), find?_optionalAttr_neg _ _ _ (by rfl),
    find?_optionalAttr_neg _ _ _ (by rfl), find?_optionalAttr_pos,
    find?_optionalAttr_none _ _ (by rfl)]
  by_cases hv : c.sFrom = "" <;> simp [hv]

theorem attr_msg_type (c : MessageCore) :
    (XElem.mk "message" "" (msgAttrs c) (msgChildren c) "").attr "type"
      = messageTypeName c.typ := by
  rw [XElem.attr]
  simp only [XElem.attrs_mk, msgAttrs, List.append_assoc]
  rw [find?_optionalAttr_neg _ _ _ (by rfl), find?_optionalAttr_neg _ _ _ (by rfl),
    find?_optionalAttr_neg _ _ _ (by rfl), find?_optionalAttr_neg _ _ _ (by rfl)]
  have hp := @find?_optionalAttr_pos "type" (messageTypeName c.typ) []
  simp only [List.append_nil] at hp
  rw [hp, if_pos (messageTypeName_ne_empty c.typ)]



theorem fce_toXml (mm : Message) (T : String) :
    fce (some mm.toXml) T
      = List.find? (fun x => x.tag == T) (msgChildren mm.core) := rfl

theorem typeFromString_name (t : MsgType) :
    typeFromString (messageTypeName t) = t := by
  cases t <;> rfl

theorem chatStateScan_toXml (mm : Message) (hext : mm.core.extensions = []) :
    chatStateScan (some mm.toXml)
      = if mm.core.state = .stateNone then none else some mm.core.state := by
  have h1 := find?_msg_stateName mm.core hext .active (by decide)
  have h2 := find?_msg_stateName mm.core hext .inactive (by decide)
  have h3 := find?_msg_stateName mm.core hext .gone (by decide)
  have h4 := find?_msg_stateName mm.core hext .composing (by decide)
  have h5 := find?_msg_stateName mm.core hext .paused (by decide)
  cases hs : mm.core.state <;>
    simp_all [chatStateScan, List.find?_cons, fce_toXml, nsO]

theorem hintScan_toXml (mm : Message) (hext : mm.core.extensions = []) :
    hintScan (some mm.toXml) = canonicalHints mm.core.hints := by
  have h1 := find?_msg_hint mm.core hext .noPermanentStorage
  have h2 := find?_msg_hint mm.core hext .noStore
  have h3 := find?_msg_hint mm.core hext .noCopy
  have h4 := find?_msg_hint mm.core hext .allowPermanentStorage
  rw [hintScan, canonicalHints]
  refine List.filter_congr (fun h hm => ?_)
  fin_cases hm <;>
    (simp_all [fce_toXml, nsO, hintElem, hintName]
     split <;> simp_all)

theorem markerScan_toXml (mm : Message) (hext : mm.core.extensions = [])
    (hg : mm.core.receiptId = "" ∨ mm.core.marker ≠ .received) :
    markerScan (some mm.toXml)
      = (mm.core.marker,
          if mm.core.marker = .noMarker then none
          else some (XElem.mk (markerName mm.core.marker) ns_chat_markers
            ([("id", mm.core.markedId)]
              ++ optionalAttr "thread" mm.core.markedThread) [] "")) := by
  have h1 := find?_msg_received mm.core hext
  have h2 := find?_msg_displayed mm.core hext
  have h3 := find?_msg_acknowledged mm.core hext
  rw [markerScan]
  cases hm : mm.core.marker
  · by_cases hrc : mm.core.receiptId = ""
    · simp only [fce_toXml, h1, h2, h3, hm, hrc]
      simp
    · simp only [fce_toXml, h1, h2, h3, hm]
      have hb : (mm.core.receiptId != "") = true := by simp [hrc]
      simp only [hb, if_true]
      simp [nsO, ns_message_receipts, ns_chat_markers, markerName]
  · have hrc : mm.core.receiptId = "" := by
      rcases hg with hg | hg
      · exact hg
      · exact absurd hm hg
    simp only [fce_toXml, h1, h2, h3, hm, hrc]
    simp [nsO, markerName]
  · by_cases hrc : mm.core.receiptId = ""
    · simp only [fce_toXml, h1, h2, h3, hm, hrc]
      simp [nsO, markerName]
    · simp only [fce_toXml, h1, h2, h3, hm]
      have hb : (mm.core.receiptId != "") = true := by simp [hrc]
      simp only [hb, if_true]
      simp [nsO, ns_message_receipts, ns_chat_markers, markerName]
  · by_cases hrc : mm.core.receiptId = ""
    · simp only [fce_toXml, h1, h2, h3, hm, hrc]
      simp [nsO, markerName]
    · simp only [fce_toXml, h1, h2, h3, hm]
      have hb : (mm.core.receiptId != "") = true := by simp [hrc]
      simp only [hb, if_true]
      simp [nsO, ns_message_receipts, ns_chat_markers, markerName]


theorem catchStep_tailCore_congr (s sq : ParseTail) (c : XElem)
    (h : tailCore s = tailCore sq) :
    tailCore (catchStep s c) = tailCore (catchStep sq c) := by
  obtain ⟨hs, hst, hj, hp, hr⟩ : s.stamp = sq.stamp ∧ s.stampType = sq.stampType
      ∧ s.mucInvitationJid = sq.mucInvitationJid
      ∧ s.mucInvitationPassword = sq.mucInvitationPassword
      ∧ s.mucInvitationReason = sq.mucInvitationReason := by
    have h1 := congrArg Prod.fst h
    have h2 := congrArg (fun p => p.2.1) h
    have h3 := congrArg (fun p => p.2.2.1) h
    have h4 := congrArg (fun p => p.2.2.2.1) h
    have h5 := congrArg (fun p => p.2.2.2.2) h
    exact ⟨h1, h2, h3, h4, h5⟩
  rw [catchStep, catchStep]
  split
  · rw [hs]
    split
    · split <;> simp [tailCore, hs, hst, hj, hp, hr]
    · split <;> simp [tailCore, hs, hst, hj, hp, hr]
  · split <;> simp [tailCore, hs, hst, hj, hp, hr]

theorem catchAll_tailCore_congr (l : List XElem) (s sq : ParseTail)
    (h : tailCore s = tailCore sq) :
    tailCore (catchAll l s) = tailCore (catchAll l sq) := by
  induction l generalizing s sq with
  | nil => exact h
  | cons c cs ih =>
    rw [catchAll, List.foldl_cons, catchAll, List.foldl_cons]
    exact ih (catchStep s c) (catchStep sq c) (catchStep_tailCore_congr s sq c h)

theorem catchAll_skip_seg {seg : List XElem} (rest : List XElem) (s : ParseTail)
    (hseg : ∀ e ∈ seg, (e.tag == "x") = false) :
    tailCore (catchAll (seg ++ rest) s) = tailCore (catchAll rest s) := by
  rw [catchAll_append]
  exact catchAll_tailCore_congr rest _ s (catchAll_nonx s hseg)

theorem nonx_optionalElem {e : XElem} (b : Bool) (h : (e.tag == "x") = false) :
    ∀ x ∈ optionalElem b e, (x.tag == "x") = false := by
  intro x hx
  cases b <;> simp [optionalElem] at hx
  exact hx ▸ h

theorem nonx_stateElems (st : ChatState) :
    ∀ e ∈ stateElems st, (e.tag == "x") = false := by
  intro e he
  obtain ⟨ht, -, hne⟩ := mem_stateElems he
  cases st <;> simp_all [chatStateName]

theorem nonx_hintsMap (hs : List Hint) :
    ∀ e ∈ hs.map hintElem, (e.tag == "x") = false := by
  intro e he
  obtain ⟨hh, rfl⟩ := mem_hintsMap he
  cases hh <;> rfl

theorem nonx_markerElems (c : MessageCore) :
    ∀ e ∈ markerElems c, (e.tag == "x") = false := by
  intro e he
  obtain ⟨ht, -, hne⟩ := mem_markerElems he
  cases hm : c.marker <;> simp_all [markerName]

theorem catchAll_muc_seg (c : MessageCore) (hdir : c.mucInvitationDirect = true)
    (rest : List XElem) (s : ParseTail) :
    tailCore (catchAll (mucElems c ++ rest) s)
      = tailCore (catchAll rest (if c.mucInvitationJid = "" then s else
          { s with
            mucInvitationJid := c.mucInvitationJid
            mucInvitationPassword := c.mucInvitationPassword
            mucInvitationReason := c.mucInvitationReason })) := by
  by_cases hj : c.mucInvitationJid = ""
  · rw [if_pos hj]
    rw [mucElems, if_neg (by simp [hj])]
    rfl
  · rw [if_neg hj]
    rw [mucElems, if_pos (by simp [hj]), hdir, if_pos rfl]
    rw [catchAll_append]
    have hstep : catchAll [XElem.mk "x" ns_conference
        ([("jid", c.mucInvitationJid)]
          ++ optionalAttr "password" c.mucInvitationPassword
          ++ optionalAttr "reason" c.mucInvitationReason) [] ""] s
        = { s with
            mucInvitationJid := c.mucInvitationJid
            mucInvitationPassword := c.mucInvitationPassword
            mucInvitationReason := c.mucInvitationReason } := by
      rw [catchAll, List.foldl_cons, List.foldl_nil]
      rw [catchStep]
      rw [if_pos (by rfl)]
      rw [if_neg (by simp [ns_conference, ns_legacy_delayed_delivery])]
      rw [if_pos (by rfl)]
      rw [show (XElem.mk "x" ns_conference
        ([("jid", c.mucInvitationJid)]
          ++ optionalAttr "password" c.mucInvitationPassword
          ++ optionalAttr "reason" c.mucInvitationReason) [] "").attr "jid"
        = c.mucInvitationJid from rfl]
      rw [attr_muc_password, attr_muc_reason]
    rw [hstep]

theorem catchAll_legacy_seg (t : Nat) (h1000 : t % 1000 = 0)
    (rest : List XElem) (s : ParseTail) (hsn : s.stamp = none) :
    tailCore (catchAll ([XElem.mk "x" ns_legacy_delayed_delivery
        (optionalAttr "stamp" (legacyStampToString t)) [] ""] ++ rest) s)
      = tailCore (catchAll rest
          { s with stamp := some t, stampType := .legacyDelayedDelivery }) := by
  rw [catchAll_append]
  have hstep : catchAll [XElem.mk "x" ns_legacy_delayed_delivery
      (optionalAttr "stamp" (legacyStampToString t)) [] ""] s
      = { s with stamp := some t, stampType := .legacyDelayedDelivery } := by
    rw [catchAll, List.foldl_cons, List.foldl_nil]
    rw [catchStep]
    rw [if_pos (by rfl), if_pos (by rfl), if_pos (by simp [hsn])]
    have ha : (XElem.mk "x" ns_legacy_delayed_delivery
        (optionalAttr "stamp" (legacyStampToString t)) [] "").attr "stamp"
        = legacyStampToString t := by
      rw [XElem.attr]
      simp only [XElem.attrs_mk, optionalAttr]
      rw [if_pos (by simp [natToStr_ne_empty, legacyStampToString])]
      rfl
    rw [ha, legacyStamp_roundtrip t h1000]
  rw [hstep]


theorem tailCore_msgChildren_eval (c : MessageCore) (hext : c.extensions = [])
    (hdir : c.mucInvitationDirect = true)
    (hmucP : c.mucInvitationJid = "" → c.mucInvitationPassword = "")
    (hmucR : c.mucInvitationJid = "" → c.mucInvitationReason = "")
    (hnone : c.stamp = none → c.stampType = .delayedDelivery)
    (hleg : ∀ t, c.stamp = some t → c.stampType = .legacyDelayedDelivery → t % 1000 = 0)
    (s0stamp : Option Nat) (s0type : StampType)
    (hs0 : (s0stamp = c.stamp ∧ s0type = c.stampType ∧ c.stampType = .delayedDelivery)
      ∨ (s0stamp = none ∧ s0type = .delayedDelivery
          ∧ (c.stamp = none ∨ c.stampType = .legacyDelayedDelivery))) :
    tailCore (catchAll (msgChildren c)
      { stamp := s0stamp, stampType := s0type, mucInvitationJid := "",
        mucInvitationPassword := "", mucInvitationReason := "", exts := [] })
      = (c.stamp, c.stampType, c.mucInvitationJid, c.mucInvitationPassword,
        c.mucInvitationReason) := by
  rw [msgChildren, hext]
  simp only [List.append_assoc, List.append_nil]
  rw [catchAll_skip_seg _ _ (nonx_optionalElem _ (by rfl))]
  rw [catchAll_skip_seg _ _ (nonx_optionalElem _ (by rfl))]
  rw [catchAll_skip_seg _ _ (nonx_optionalElem _ (by rfl))]
  rw [catchAll_skip_seg _ _ (nonx_stateElems _)]
  rw [catchAll_skip_seg _ _ (nonx_optionalElem _ (by rfl))]
  rcases hs0 with ⟨he1, he2, hdl⟩ | ⟨he1, he2, hcase⟩
  · -- standard (or absent) timestamp already recorded before the child loop
    subst he1
    subst he2
    rcases hsm : c.stamp with - | t
    · rw [hdl]
      simp only [stampElems, List.nil_append]
      rw [catchAll_skip_seg _ _ (nonx_optionalElem _ (by rfl))]
      rw [catchAll_skip_seg _ _ (nonx_optionalElem _ (by rfl))]
      rw [catchAll_skip_seg _ _ (nonx_optionalElem _ (by rfl))]
      rw [catchAll_muc_seg c hdir]
      rw [catchAll_skip_seg _ _ (nonx_hintsMap _)]
      rw [catchAll_skip_seg _ _ (nonx_optionalElem _ (by rfl))]
      rw [catchAll_skip_seg _ _ (nonx_markerElems c)]
      rw [catchAll_skip_seg _ _ (nonx_optionalElem _ (by rfl))]
      rw [catchAll_nonx _ (nonx_optionalElem _ (by rfl))]
      by_cases hj : c.mucInvitationJid = ""
      · simp [tailCore, hj, hmucP hj, hmucR hj, hsm, hdl]
      · simp [tailCore, hj, hsm, hdl]
    · rw [hdl]
      simp only [stampElems, List.nil_append]
      rw [if_pos (by decide)]
      rw [catchAll_skip_seg _ _ (fun x hx => by simp at hx; subst hx; rfl)]
      rw [catchAll_skip_seg _ _ (nonx_optionalElem _ (by rfl))]
      rw [catchAll_skip_seg _ _ (nonx_optionalElem _ (by rfl))]
      rw [catchAll_skip_seg _ _ (nonx_optionalElem _ (by rfl))]
      rw [catchAll_muc_seg c hdir]
      rw [catchAll_skip_seg _ _ (nonx_hintsMap _)]
      rw [catchAll_skip_seg _ _ (nonx_optionalElem _ (by rfl))]
      rw [catchAll_skip_seg _ _ (nonx_markerElems c)]
      rw [catchAll_skip_seg _ _ (nonx_optionalElem _ (by rfl))]
      rw [catchAll_nonx _ (nonx_optionalElem _ (by rfl))]
      by_cases hj : c.mucInvitationJid = ""
      · simp [tailCore, hj, hmucP hj, hmucR hj, hsm, hdl]
      · simp [tailCore, hj, hsm, hdl]
  · subst he1
    subst he2
    rcases hsm : c.stamp with - | t
    · have hdl : c.stampType = .delayedDelivery := hnone hsm
      simp only [stampElems, List.nil_append]
      rw [catchAll_skip_seg _ _ (nonx_optionalElem _ (by rfl))]
      rw [catchAll_skip_seg _ _ (nonx_optionalElem _ (by rfl))]
      rw [catchAll_skip_seg _ _ (nonx_optionalElem _ (by rfl))]
      rw [catchAll_muc_seg c hdir]
      rw [catchAll_skip_seg _ _ (nonx_hintsMap _)]
      rw [catchAll_skip_seg _ _ (nonx_optionalElem _ (by rfl))]
      rw [catchAll_skip_seg _ _ (nonx_markerElems c)]
      rw [catchAll_skip_seg _ _ (nonx_optionalElem _ (by rfl))]
      rw [catchAll_nonx _ (nonx_optionalElem _ (by rfl))]
      by_cases hj : c.mucInvitationJid = ""
      · simp [tailCore, hj, hmucP hj, hmucR hj, hsm, hdl]
      · simp [tailCore, hj, hsm, hdl]
    · have hlg : c.stampType = .legacyDelayedDelivery := by
        rcases hcase with hq | hq
        · rw [hsm] at hq; cases hq
        · exact hq
      rw [hlg]
      simp only [stampElems, List.nil_append]
      rw [if_neg (by decide)]
      rw [catchAll_legacy_seg t (hleg t hsm hlg) _ _ (by rfl)]
      rw [catchAll_skip_seg _ _ (nonx_optionalElem _ (by rfl))]
      rw [catchAll_skip_seg _ _ (nonx_optionalElem _ (by rfl))]
      rw [catchAll_skip_seg _ _ (nonx_optionalElem _ (by rfl))]
      rw [catchAll_muc_seg c hdir]
      rw [catchAll_skip_seg _ _ (nonx_hintsMap _)]
      rw [catchAll_skip_seg _ _ (nonx_optionalElem _ (by rfl))]
      rw [catchAll_skip_seg _ _ (nonx_markerElems c)]
      rw [catchAll_skip_seg _ _ (nonx_optionalElem _ (by rfl))]
      rw [catchAll_nonx _ (nonx_optionalElem _ (by rfl))]
      by_cases hj : c.mucInvitationJid = ""
      · simp [tailCore, hj, hmucP hj, hmucR hj, hsm, hlg]
      · simp [tailCore, hj, hsm, hlg]


theorem textElem_text (t s : String) : (textElem t s).text = s := rfl

theorem fce_msg (c : MessageCore) (T : String) :
    fce (some (XElem.mk "message" "" (msgAttrs c) (msgChildren c) "")) T
      = List.find? (fun x => x.tag == T) (msgChildren c) := rfl

theorem attr_delay_stamp (t : Nat) :
    (XElem.mk "delay" ns_delayed_delivery
      (optionalAttr "stamp" (datetimeToString t)) [] "").attr "stamp"
      = datetimeToString t := by
  rw [XElem.attr]
  simp only [XElem.attrs_mk, optionalAttr]
  rw [if_pos (by simp [datetimeToString, natToStr_ne_empty])]
  rfl

theorem decoded_typ (c : MessageCore) :
    (decodeMessage (some (Message.mk c none none none).toXml)).typ = c.typ := by
  have hW : (Message.mk c none none none).toXml
      = XElem.mk "message" "" (msgAttrs c) (msgChildren c) "" := rfl
  rw [hW, decodeMessage, parseMessage]
  simp only [parseF, Message.typ, Message.core_mk]
  simp only [attrO]
  rw [attr_msg_type, typeFromString_name]

theorem decoded_subject (c : MessageCore) (hext : c.extensions = []) :
    (decodeMessage (some (Message.mk c none none none).toXml)).subject = c.subject := by
  have hW : (Message.mk c none none none).toXml
      = XElem.mk "message" "" (msgAttrs c) (msgChildren c) "" := rfl
  rw [hW, decodeMessage, parseMessage]
  simp only [parseF, Message.subject, Message.core_mk]
  simp only [fce, XElem.children_mk, find?_msg_subject c hext]
  by_cases hs : c.subject = "" <;> simp [hs, textO, textElem_text]

theorem decoded_body (c : MessageCore) (hext : c.extensions = []) :
    (decodeMessage (some (Message.mk c none none none).toXml)).body = c.body := by
  have hW : (Message.mk c none none none).toXml
      = XElem.mk "message" "" (msgAttrs c) (msgChildren c) "" := rfl
  rw [hW, decodeMessage, parseMessage]
  simp only [parseF, Message.body, Message.core_mk]
  simp only [fce, XElem.children_mk, find?_msg_body c hext]
  by_cases hb : c.body = ""
  · cases hr : c.replace <;> simp [hb, hr, textO, textElem_text]
  · simp [hb, textO, textElem_text]

theorem decoded_thread (c : MessageCore) (hext : c.extensions = []) :
    (decodeMessage (some (Message.mk c none none none).toXml)).thread = c.thread := by
  have hW : (Message.mk c none none none).toXml
      = XElem.mk "message" "" (msgAttrs c) (msgChildren c) "" := rfl
  rw [hW, decodeMessage, parseMessage]
  simp only [parseF, Message.thread, Message.core_mk]
  simp only [fce, XElem.children_mk, find?_msg_thread c hext]
  by_cases hs : c.thread = "" <;> simp [hs, textO, textElem_text]

theorem decoded_state (c : MessageCore) (hext : c.extensions = []) :
    (decodeMessage (some (Message.mk c none none none).toXml)).state = c.state := by
  have hW : (Message.mk c none none none).toXml
      = XElem.mk "message" "" (msgAttrs c) (msgChildren c) "" := rfl
  have hSt : chatStateScan (some (XElem.mk "message" "" (msgAttrs c) (msgChildren c) ""))
      = (if c.state = .stateNone then none else some c.state) := by
    have h := chatStateScan_toXml (Message.mk c none none none) (by simpa using hext)
    rw [hW] at h
    simpa using h
  rw [hW, decodeMessage, parseMessage]
  simp only [parseF, Message.state, Message.core_mk]
  simp only [hSt]
  by_cases hs : c.state = .stateNone <;>
    simp [hs, defaultMessage, defaultCore]

theorem decoded_attention (c : MessageCore) (hext : c.extensions = []) :
    (decodeMessage (some (Message.mk c none none none).toXml)).isAttentionRequested
      = c.attentionRequested := by
  have hW : (Message.mk c none none none).toXml
      = XElem.mk "message" "" (msgAttrs c) (msgChildren c) "" := rfl
  rw [hW, decodeMessage, parseMessage]
  simp only [parseF, Message.isAttentionRequested, Message.core_mk]
  simp only [fce, XElem.children_mk, find?_msg_attention c hext]
  cases ha : c.attentionRequested <;> simp [ha, nsO, ns_attention]

theorem decoded_xhtml (c : MessageCore) (hext : c.extensions = [])
    (hxh : xhtmlExtract (xhtmlBodyElem c.xhtml) = c.xhtml) :
    (decodeMessage (some (Message.mk c none none none).toXml)).xhtml = c.xhtml := by
  have hW : (Message.mk c none none none).toXml
      = XElem.mk "message" "" (msgAttrs c) (msgChildren c) "" := rfl
  rw [hW, decodeMessage, parseMessage]
  simp only [parseF, Message.xhtml, Message.core_mk]
  simp only [fce, XElem.children_mk, find?_msg_html c hext]
  by_cases hx : c.xhtml = ""
  · simp [hx, defaultMessage, defaultCore]
  · simp only [hx, bne_iff_ne, ne_eq, not_false_eq_true, if_true]
    simp [nsO, List.find?_cons, xhtmlBodyElem]
    simpa [xhtmlBodyElem] using hxh

theorem decoded_receiptId (c : MessageCore) (hext : c.extensions = []) :
    (decodeMessage (some (Message.mk c none none none).toXml)).receiptId
      = c.receiptId := by
  have hW : (Message.mk c none none none).toXml
      = XElem.mk "message" "" (msgAttrs c) (msgChildren c) "" := rfl
  rw [hW, decodeMessage, parseMessage]
  simp only [parseF, Message.receiptId, Message.core_mk]
  rw [fce_msg c "received", find?_msg_received c hext]
  by_cases hrc : c.receiptId = ""
  · by_cases hm : c.marker = .received <;>
      simp [hrc, hm, nsO, ns_chat_markers, ns_message_receipts]
  · simp [hrc, nsO, attrO, XElem.attr, List.find?_cons]

theorem decoded_receiptRequested (c : MessageCore) (hext : c.extensions = []) :
    (decodeMessage (some (Message.mk c none none none).toXml)).isReceiptRequested
      = c.receiptRequested := by
  have hW : (Message.mk c none none none).toXml
      = XElem.mk "message" "" (msgAttrs c) (msgChildren c) "" := rfl
  rw [hW, decodeMessage, parseMessage]
  simp only [parseF, Message.isReceiptRequested, Message.core_mk]
  simp only [fce, XElem.children_mk, find?_msg_request c hext]
  cases hq : c.receiptRequested <;> simp [hq, nsO, ns_message_receipts]


theorem tail_stamp (c : MessageCore) (hext : c.extensions = [])
    (hdir : c.mucInvitationDirect = true)
    (hmucP : c.mucInvitationJid = "" → c.mucInvitationPassword = "")
    (hmucR : c.mucInvitationJid = "" → c.mucInvitationReason = "")
    (hnone : c.stamp = none → c.stampType = .delayedDelivery)
    (hleg : ∀ t, c.stamp = some t → c.stampType = .legacyDelayedDelivery → t % 1000 = 0)
    (X : Option Nat) (Y : StampType)
    (hs0 : (X = c.stamp ∧ Y = c.stampType ∧ c.stampType = .delayedDelivery)
      ∨ (X = none ∧ Y = .delayedDelivery
          ∧ (c.stamp = none ∨ c.stampType = .legacyDelayedDelivery))) :
    (catchAll (msgChildren c)
      { stamp := X, stampType := Y, mucInvitationJid := "",
        mucInvitationPassword := "", mucInvitationReason := "", exts := [] }).stamp
      = c.stamp := by
  have h := congrArg (fun p => p.1)
    (tailCore_msgChildren_eval c hext hdir hmucP hmucR hnone hleg X Y hs0)
  simpa [tailCore] using h

theorem tail_stampType (c : MessageCore) (hext : c.extensions = [])
    (hdir : c.mucInvitationDirect = true)
    (hmucP : c.mucInvitationJid = "" → c.mucInvitationPassword = "")
    (hmucR : c.mucInvitationJid = "" → c.mucInvitationReason = "")
    (hnone : c.stamp = none → c.stampType = .delayedDelivery)
    (hleg : ∀ t, c.stamp = some t → c.stampType = .legacyDelayedDelivery → t % 1000 = 0)
    (X : Option Nat) (Y : StampType)
    (hs0 : (X = c.stamp ∧ Y = c.stampType ∧ c.stampType = .delayedDelivery)
      ∨ (X = none ∧ Y = .delayedDelivery
          ∧ (c.stamp = none ∨ c.stampType = .legacyDelayedDelivery))) :
    (catchAll (msgChildren c)
      { stamp := X, stampType := Y, mucInvitationJid := "",
        mucInvitationPassword := "", mucInvitationReason := "", exts := [] }).stampType
      = c.stampType := by
  have h := congrArg (fun p => p.2.1)
    (tailCore_msgChildren_eval c hext hdir hmucP hmucR hnone hleg X Y hs0)
  simpa [tailCore] using h

theorem tail_mucJid (c : MessageCore) (hext : c.extensions = [])
    (hdir : c.mucInvitationDirect = true)
    (hmucP : c.mucInvitationJid = "" → c.mucInvitationPassword = "")
    (hmucR : c.mucInvitationJid = "" → c.mucInvitationReason = "")
    (hnone : c.stamp = none → c.stampType = .delayedDelivery)
    (hleg : ∀ t, c.stamp = some t → c.stampType = .legacyDelayedDelivery → t % 1000 = 0)
    (X : Option Nat) (Y : StampType)
    (hs0 : (X = c.stamp ∧ Y = c.stampType ∧ c.stampType = .delayedDelivery)
      ∨ (X = none ∧ Y = .delayedDelivery
          ∧ (c.stamp = none ∨ c.stampType = .legacyDelayedDelivery))) :
    (catchAll (msgChildren c)
      { stamp := X, stampType := Y, mucInvitationJid := "",
        mucInvitationPassword := "", mucInvitationReason := "",
        exts := [] }).mucInvitationJid
      = c.mucInvitationJid := by
  have h := congrArg (fun p => p.2.2.1)
    (tailCore_msgChildren_eval c hext hdir hmucP hmucR hnone hleg X Y hs0)
  simpa [tailCore] using h

theorem tail_mucPassword (c : MessageCore) (hext : c.extensions = [])
    (hdir : c.mucInvitationDirect = true)
    (hmucP : c.mucInvitationJid = "" → c.mucInvitationPassword = "")
    (hmucR : c.mucInvitationJid = "" → c.mucInvitationReason = "")
    (hnone : c.stamp = none → c.stampType = .delayedDelivery)
    (hleg : ∀ t, c.stamp = some t → c.stampType = .legacyDelayedDelivery → t % 1000 = 0)
    (X : Option Nat) (Y : StampType)
    (hs0 : (X = c.stamp ∧ Y = c.stampType ∧ c.stampType = .delayedDelivery)
      ∨ (X = none ∧ Y = .delayedDelivery
          ∧ (c.stamp = none ∨ c.stampType = .legacyDelayedDelivery))) :
    (catchAll (msgChildren c)
      { stamp := X, stampType := Y, mucInvitationJid := "",
        mucInvitationPassword := "", mucInvitationReason := "",
        exts := [] }).mucInvitationPassword
      = c.mucInvitationPassword := by
  have h := congrArg (fun p => p.2.2.2.1)
    (tailCore_msgChildren_eval c hext hdir hmucP hmucR hnone hleg X Y hs0)
  simpa [tailCore] using h

theorem tail_mucReason (c : MessageCore) (hext : c.extensions = [])
    (hdir : c.mucInvitationDirect = true)
    (hmucP : c.mucInvitationJid = "" → c.mucInvitationPassword = "")
    (hmucR : c.mucInvitationJid = "" → c.mucInvitationReason = "")
    (hnone : c.stamp = none → c.stampType = .delayedDelivery)
    (hleg : ∀ t, c.stamp = some t → c.stampType = .legacyDelayedDelivery → t % 1000 = 0)
    (X : Option Nat) (Y : StampType)
    (hs0 : (X = c.stamp ∧ Y = c.stampType ∧ c.stampType = .delayedDelivery)
      ∨ (X = none ∧ Y = .delayedDelivery
          ∧ (c.stamp = none ∨ c.stampType = .legacyDelayedDelivery))) :
    (catchAll (msgChildren c)
      { stamp := X, stampType := Y, mucInvitationJid := "",
        mucInvitationPassword := "", mucInvitationReason := "",
        exts := [] }).mucInvitationReason
      = c.mucInvitationReason := by
  have h := congrArg (fun p => p.2.2.2.2)
    (tailCore_msgChildren_eval c hext hdir hmucP hmucR hnone hleg X Y hs0)
  simpa [tailCore] using h

theorem decoded_mucJid (c : MessageCore) (hext : c.extensions = [])
    (hdir : c.mucInvitationDirect = true)
    (hmucP : c.mucInvitationJid = "" → c.mucInvitationPassword = "")
    (hmucR : c.mucInvitationJid = "" → c.mucInvitationReason = "")
    (hnone : c.stamp = none → c.stampType = .delayedDelivery)
    (hleg : ∀ t, c.stamp = some t → c.stampType = .legacyDelayedDelivery → t % 1000 = 0) :
    (decodeMessage (some (Message.mk c none none none).toXml)).mucInvitationJid
      = c.mucInvitationJid := by
  have hW : (Message.mk c none none none).toXml
      = XElem.mk "message" "" (msgAttrs c) (msgChildren c) "" := rfl
  rw [hW, decodeMessage, parseMessage]
  simp only [parseF, Message.mucInvitationJid, Message.core_mk]
  simp only [childrenO, XElem.children_mk]
  rw [fce_msg c "delay", find?_msg_delay c hext]
  simp only [defaultMessage, Message.core_mk, defaultCore]
  refine tail_mucJid c hext hdir hmucP hmucR hnone hleg _ _ ?_
  rcases hsm : c.stamp with - | t
  · exact Or.inr ⟨by simp, by simp, Or.inl rfl⟩
  · cases hst : c.stampType
    · exact Or.inr ⟨by simp, by simp, Or.inr rfl⟩
    · exact Or.inl ⟨by simp [nsO, attrO, attr_delay_stamp, datetime_roundtrip],
        by simp [nsO], rfl⟩

theorem decoded_stamp (c : MessageCore) (hext : c.extensions = [])
    (hdir : c.mucInvitationDirect = true)
    (hmucP : c.mucInvitationJid = "" → c.mucInvitationPassword = "")
    (hmucR : c.mucInvitationJid = "" → c.mucInvitationReason = "")
    (hnone : c.stamp = none → c.stampType = .delayedDelivery)
    (hleg : ∀ t, c.stamp = some t → c.stampType = .legacyDelayedDelivery → t % 1000 = 0) :
    (decodeMessage (some (Message.mk c none none none).toXml)).stamp
      = c.stamp := by
  have hW : (Message.mk c none none none).toXml
      = XElem.mk "message" "" (msgAttrs c) (msgChildren c) "" := rfl
  rw [hW, decodeMessage, parseMessage]
  simp only [parseF, Message.stamp, Message.core_mk]
  simp only [childrenO, XElem.children_mk]
  rw [fce_msg c "delay", find?_msg_delay c hext]
  simp only [defaultMessage, Message.core_mk, defaultCore]
  refine tail_stamp c hext hdir hmucP hmucR hnone hleg _ _ ?_
  rcases hsm : c.stamp with - | t
  · exact Or.inr ⟨by simp, by simp, Or.inl rfl⟩
  · cases hst : c.stampType
    · exact Or.inr ⟨by simp, by simp, Or.inr rfl⟩
    · exact Or.inl ⟨by simp [nsO, attrO, attr_delay_stamp, datetime_roundtrip],
        by simp [nsO], rfl⟩

theorem decoded_stampType (c : MessageCore) (hext : c.extensions = [])
    (hdir : c.mucInvitationDirect = true)
    (hmucP : c.mucInvitationJid = "" → c.mucInvitationPassword = "")
    (hmucR : c.mucInvitationJid = "" → c.mucInvitationReason = "")
    (hnone : c.stamp = none → c.stampType = .delayedDelivery)
    (hleg : ∀ t, c.stamp = some t → c.stampType = .legacyDelayedDelivery → t % 1000 = 0) :
    (decodeMessage (some (Message.mk c none none none).toXml)).stampType
      = c.stampType := by
  have hW : (Message.mk c none none none).toXml
      = XElem.mk "message" "" (msgAttrs c) (msgChildren c) "" := rfl
  rw [hW, decodeMessage, parseMessage]
  simp only [parseF, Message.stampType, Message.core_mk]
  simp only [childrenO, XElem.children_mk]
  rw [fce_msg c "delay", find?_msg_delay c hext]
  simp only [defaultMessage, Message.core_mk, defaultCore]
  refine tail_stampType c hext hdir hmucP hmucR hnone hleg _ _ ?_
  rcases hsm : c.stamp with - | t
  · exact Or.inr ⟨by simp, by simp, Or.inl rfl⟩
  · cases hst : c.stampType
    · exact Or.inr ⟨by simp, by simp, Or.inr rfl⟩
    · exact Or.inl ⟨by simp [nsO, attrO, attr_delay_stamp, datetime_roundtrip],
        by simp [nsO], rfl⟩

theorem decoded_mucPassword (c : MessageCore) (hext : c.extensions = [])
    (hdir : c.mucInvitationDirect = true)
    (hmucP : c.mucInvitationJid = "" → c.mucInvitationPassword = "")
    (hmucR : c.mucInvitationJid = "" → c.mucInvitationReason = "")
    (hnone : c.stamp = none → c.stampType = .delayedDelivery)
    (hleg : ∀ t, c.stamp = some t → c.stampType = .legacyDelayedDelivery → t % 1000 = 0) :
    (decodeMessage (some (Message.mk c none none none).toXml)).mucInvitationPassword
      = c.mucInvitationPassword := by
  have hW : (Message.mk c none none none).toXml
      = XElem.mk "message" "" (msgAttrs c) (msgChildren c) "" := rfl
  rw [hW, decodeMessage, parseMessage]
  simp only [parseF, Message.mucInvitationPassword, Message.core_mk]
  simp only [childrenO, XElem.children_mk]
  rw [fce_msg c "delay", find?_msg_delay c hext]
  simp only [defaultMessage, Message.core_mk, defaultCore]
  refine tail_mucPassword c hext hdir hmucP hmucR hnone hleg _ _ ?_
  rcases hsm : c.stamp with - | t
  · exact Or.inr ⟨by simp, by simp, Or.inl rfl⟩
  · cases hst : c.stampType
    · exact Or.inr ⟨by simp, by simp, Or.inr rfl⟩
    · exact Or.inl ⟨by simp [nsO, attrO, attr_delay_stamp, datetime_roundtrip],
        by simp [nsO], rfl⟩

theorem decoded_mucReason (c : MessageCore) (hext : c.extensions = [])
    (hdir : c.mucInvitationDirect = true)
    (hmucP : c.mucInvitationJid = "" → c.mucInvitationPassword = "")
    (hmucR : c.mucInvitationJid = "" → c.mucInvitationReason = "")
    (hnone : c.stamp = none → c.stampType = .delayedDelivery)
    (hleg : ∀ t, c.stamp = some t → c.stampType = .legacyDelayedDelivery → t % 1000 = 0) :
    (decodeMessage (some (Message.mk c none none none).toXml)).mucInvitationReason
      = c.mucInvitationReason := by
  have hW : (Message.mk c none none none).toXml
      = XElem.mk "message" "" (msgAttrs c) (msgChildren c) "" := rfl
  rw [hW, decodeMessage, parseMessage]
  simp only [parseF, Message.mucInvitationReason, Message.core_mk]
  simp only [childrenO, XElem.children_mk]
  rw [fce_msg c "delay", find?_msg_delay c hext]
  simp only [defaultMessage, Message.core_mk, defaultCore]
  refine tail_mucReason c hext hdir hmucP hmucR hnone hleg _ _ ?_
  rcases hsm : c.stamp with - | t
  · exact Or.inr ⟨by simp, by simp, Or.inl rfl⟩
  · cases hst : c.stampType
    · exact Or.inr ⟨by simp, by simp, Or.inr rfl⟩
    · exact Or.inl ⟨by simp [nsO, attrO, attr_delay_stamp, datetime_roundtrip],
        by simp [nsO], rfl⟩

theorem decoded_mucDirect (c : MessageCore) (hdir : c.mucInvitationDirect = true) :
    (decodeMessage (some (Message.mk c none none none).toXml)).mucInvitationDirect
      = c.mucInvitationDirect := by
  have hW : (Message.mk c none none none).toXml
      = XElem.mk "message" "" (msgAttrs c) (msgChildren c) "" := rfl
  rw [hW, decodeMessage, parseMessage]
  simp only [parseF, Message.mucInvitationDirect, Message.core_mk]
  simp only [defaultMessage, Message.core_mk, defaultCore]
  exact hdir.symm

theorem decoded_hints (c : MessageCore) (hext : c.extensions = [])
    (hhints : c.hints = canonicalHints c.hints) :
    (decodeMessage (some (Message.mk c none none none).toXml)).hints = c.hints := by
  have hW : (Message.mk c none none none).toXml
      = XElem.mk "message" "" (msgAttrs c) (msgChildren c) "" := rfl
  rw [hW, decodeMessage, parseMessage]
  have hHs : hintScan (some (XElem.mk "message" "" (msgAttrs c) (msgChildren c) ""))
      = canonicalHints c.hints := by
    have h := hintScan_toXml (Message.mk c none none none) (by simpa using hext)
    rw [hW] at h
    simpa using h
  simp only [parseF, Message.hints, Message.core_mk]
  rw [hHs]
  simp only [defaultMessage, Message.core_mk, defaultCore]
  rw [List.nil_append]
  exact hhints.symm

theorem decoded_markable (c : MessageCore) (hext : c.extensions = []) :
    (decodeMessage (some (Message.mk c none none none).toXml)).isMarkable
      = c.markable := by
  have hW : (Message.mk c none none none).toXml
      = XElem.mk "message" "" (msgAttrs c) (msgChildren c) "" := rfl
  rw [hW, decodeMessage, parseMessage]
  simp only [parseF, Message.isMarkable, Message.core_mk]
  rw [fce_msg c "markable", find?_msg_markable c hext]
  cases hm : c.markable <;> simp [hm, defaultMessage, defaultCore]

theorem decoded_marker (c : MessageCore) (hext : c.extensions = [])
    (hrm : c.receiptId = "" ∨ c.marker ≠ .received) :
    (decodeMessage (some (Message.mk c none none none).toXml)).marker = c.marker := by
  have hW : (Message.mk c none none none).toXml
      = XElem.mk "message" "" (msgAttrs c) (msgChildren c) "" := rfl
  rw [hW, decodeMessage, parseMessage]
  have hMk : markerScan (some (XElem.mk "message" "" (msgAttrs c) (msgChildren c) ""))
      = (c.marker, if c.marker = .noMarker then none
          else some (XElem.mk (markerName c.marker) ns_chat_markers
            ([("id", c.markedId)] ++ optionalAttr "thread" c.markedThread) [] "")) := by
    have h := markerScan_toXml (Message.mk c none none none) (by simpa using hext)
      (by simpa using hrm)
    rw [hW] at h
    simpa using h
  simp only [parseF, Message.marker, Message.core_mk]
  rw [hMk]
  cases hm : c.marker <;>
    simp [hm, nsO, markerName, defaultMessage, defaultCore]

theorem decoded_markedId (c : MessageCore) (hext : c.extensions = [])
    (hrm : c.receiptId = "" ∨ c.marker ≠ .received)
    (hmk : c.marker = .noMarker → c.markedId = "" ∧ c.markedThread = "") :
    (decodeMessage (some (Message.mk c none none none).toXml)).markedId
      = c.markedId := by
  have hW : (Message.mk c none none none).toXml
      = XElem.mk "message" "" (msgAttrs c) (msgChildren c) "" := rfl
  rw [hW, decodeMessage, parseMessage]
  have hMk : markerScan (some (XElem.mk "message" "" (msgAttrs c) (msgChildren c) ""))
      = (c.marker, if c.marker = .noMarker then none
          else some (XElem.mk (markerName c.marker) ns_chat_markers
            ([("id", c.markedId)] ++ optionalAttr "thread" c.markedThread) [] "")) := by
    have h := markerScan_toXml (Message.mk c none none none) (by simpa using hext)
      (by simpa using hrm)
    rw [hW] at h
    simpa using h
  simp only [parseF, Message.markedId, Message.core_mk]
  rw [hMk]
  cases hm : c.marker
  · simp [defaultMessage, defaultCore, (hmk hm).1]
  all_goals simp [nsO, attrO, XElem.attr, List.find?_cons]

theorem decoded_markedThread (c : MessageCore) (hext : c.extensions = [])
    (hrm : c.receiptId = "" ∨ c.marker ≠ .received)
    (hmk : c.marker = .noMarker → c.markedId = "" ∧ c.markedThread = "") :
    (decodeMessage (some (Message.mk c none none none).toXml)).markedThread
      = c.markedThread := by
  have hW : (Message.mk c none none none).toXml
      = XElem.mk "message" "" (msgAttrs c) (msgChildren c) "" := rfl
  rw [hW, decodeMessage, parseMessage]
  have hMk : markerScan (some (XElem.mk "message" "" (msgAttrs c) (msgChildren c) ""))
      = (c.marker, if c.marker = .noMarker then none
          else some (XElem.mk (markerName c.marker) ns_chat_markers
            ([("id", c.markedId)] ++ optionalAttr "thread" c.markedThread) [] "")) := by
    have h := markerScan_toXml (Message.mk c none none none) (by simpa using hext)
      (by simpa using hrm)
    rw [hW] at h
    simpa using h
  simp only [parseF, Message.markedThread, Message.core_mk]
  rw [hMk]
  cases hm : c.marker
  · simp [defaultMessage, defaultCore, (hmk hm).2]
  all_goals (by_cases hth : c.markedThread = "" <;>
    simp [nsO, attrO, XElem.attr, optionalAttr, hth, List.find?_cons])

theorem decoded_isReplace (c : MessageCore) (hext : c.extensions = []) :
    (decodeMessage (some (Message.mk c none none none).toXml)).isReplace
      = c.replace := by
  have hW : (Message.mk c none none none).toXml
      = XElem.mk "message" "" (msgAttrs c) (msgChildren c) "" := rfl
  rw [hW, decodeMessage, parseMessage]
  simp only [parseF, Message.isReplace, Message.core_mk]
  rw [fce_msg c "replace", find?_msg_replace c hext]
  cases hr : c.replace <;> simp [hr, defaultMessage, defaultCore]

theorem decoded_replaceId (c : MessageCore) (hext : c.extensions = [])
    (hrep : c.replace = false → c.replaceId = "") :
    (decodeMessage (some (Message.mk c none none none).toXml)).replaceId
      = c.replaceId := by
  have hW : (Message.mk c none none none).toXml
      = XElem.mk "message" "" (msgAttrs c) (msgChildren c) "" := rfl
  rw [hW, decodeMessage, parseMessage]
  simp only [parseF, Message.replaceId, Message.core_mk]
  rw [fce_msg c "replace", find?_msg_replace c hext]
  cases hr : c.replace
  · simp [defaultMessage, defaultCore, hrep hr]
  · simp [XElem.attr, List.find?_cons]

theorem decoded_sFrom (c : MessageCore) :
    (decodeMessage (some (Message.mk c none none none).toXml)).sFrom = c.sFrom := by
  have hW : (Message.mk c none none none).toXml
      = XElem.mk "message" "" (msgAttrs c) (msgChildren c) "" := rfl
  rw [hW, decodeMessage, parseMessage]
  simp only [parseF, Message.sFrom, Message.core_mk]
  simp only [attrO]
  exact attr_msg_from c

theorem decoded_sTo (c : MessageCore) :
    (decodeMessage (some (Message.mk c none none none).toXml)).sTo = c.sTo := by
  have hW : (Message.mk c none none none).toXml
      = XElem.mk "message" "" (msgAttrs c) (msgChildren c) "" := rfl
  rw [hW, decodeMessage, parseMessage]
  simp only [parseF, Message.sTo, Message.core_mk]
  simp only [attrO]
  exact attr_msg_to c

theorem decoded_sId (c : MessageCore) :
    (decodeMessage (some (Message.mk c none none none).toXml)).sId = c.sId := by
  have hW : (Message.mk c none none none).toXml
      = XElem.mk "message" "" (msgAttrs c) (msgChildren c) "" := rfl
  rw [hW, decodeMessage, parseMessage]
  simp only [parseF, Message.sId, Message.core_mk]
  simp only [attrO]
  exact attr_msg_id c

theorem decoded_sLang (c : MessageCore) :
    (decodeMessage (some (Message.mk c none none none).toXml)).sLang = c.sLang := by
  have hW : (Message.mk c none none none).toXml
      = XElem.mk "message" "" (msgAttrs c) (msgChildren c) "" := rfl
  rw [hW, decodeMessage, parseMessage]
  simp only [parseF, Message.sLang, Message.core_mk]
  simp only [attrO]
  exact attr_msg_lang c

theorem decoded_forwardedM (c : MessageCore) (hext : c.extensions = []) :
    (decodeMessage (some (Message.mk c none none none).toXml)).forwardedM = none := by
  have hW : (Message.mk c none none none).toXml
      = XElem.mk "message" "" (msgAttrs c) (msgChildren c) "" := rfl
  rw [hW, decodeMessage, parseMessage]
  simp only [parseF, Message.forwardedM_mk]
  rw [fce_msg c "forwarded", find?_msg_forwarded c hext]
  simp [defaultMessage]

theorem decoded_mamM (c : MessageCore) (hext : c.extensions = []) :
    (decodeMessage (some (Message.mk c none none none).toXml)).mamM = none := by
  have hW : (Message.mk c none none none).toXml
      = XElem.mk "message" "" (msgAttrs c) (msgChildren c) "" := rfl
  rw [hW, decodeMessage, parseMessage]
  simp only [parseF, Message.mamM_mk]
  rw [fce_msg c "result", find?_msg_result c hext]
  simp [defaultMessage]

theorem decoded_carbonM (c : MessageCore) (hext : c.extensions = []) :
    (decodeMessage (some (Message.mk c none none none).toXml)).carbonM = none := by
  have hW : (Message.mk c none none none).toXml
      = XElem.mk "message" "" (msgAttrs c) (msgChildren c) "" := rfl
  rw [hW, decodeMessage, parseMessage]
  simp only [parseF, Message.carbonM_mk]
  rw [fce_msg c "sent", find?_msg_sent c hext,
    fce_msg c "received", find?_msg_received c hext]
  by_cases hrc : c.receiptId = ""
  · by_cases hm : c.marker = .received <;>
      simp [hrc, hm, ns_message_carbons, ns_chat_markers, ns_message_receipts,
        defaultMessage]
  · simp [hrc, ns_message_carbons, ns_message_receipts, defaultMessage]


/-- C1 (amended): decode-after-encode reproduces every known field, for
records with no nested records, the direct MUC-invitation form, xhtml
normalization-stable content, representable timestamps, canonical hint
lists, no receipts/received-marker clash, and defaulted fields consistent
with their guards. -/
theorem c1_roundtrip_known_fields (m : Message)
    (hfw : m.forwardedM = none) (hmam : m.mamM = none) (hcarb : m.carbonM = none)
    (hext : m.extensions = [])
    (hdir : m.mucInvitationDirect = true)
    (hmucP : m.mucInvitationJid = "" → m.mucInvitationPassword = "")
    (hmucR : m.mucInvitationJid = "" → m.mucInvitationReason = "")
    (hxh : xhtmlExtract (xhtmlBodyElem m.xhtml) = m.xhtml)
    (hnone : m.stamp = none → m.stampType = .delayedDelivery)
    (hleg : ∀ t, m.stamp = some t → m.stampType = .legacyDelayedDelivery → t % 1000 = 0)
    (hhints : m.hints = canonicalHints m.hints)
    (hrm : m.receiptId = "" ∨ m.marker ≠ .received)
    (hmk : m.marker = .noMarker → m.markedId = "" ∧ m.markedThread = "")
    (hrep : m.isReplace = false → m.replaceId = "") :
    knownFieldsAgree (decodeMessage (some m.toXml)) m := by
  obtain ⟨c, fw, mam, carb⟩ := m
  simp only [Message.forwardedM_mk, Message.mamM_mk, Message.carbonM_mk] at hfw hmam hcarb
  simp only [Message.extensions, Message.core_mk] at hext
  simp only [Message.mucInvitationDirect, Message.core_mk] at hdir
  simp only [Message.mucInvitationJid, Message.mucInvitationPassword, Message.core_mk] at hmucP
  simp only [Message.mucInvitationJid, Message.mucInvitationReason, Message.core_mk] at hmucR
  simp only [Message.xhtml, Message.core_mk] at hxh
  simp only [Message.stamp, Message.stampType, Message.core_mk] at hnone hleg
  simp only [Message.hints, Message.core_mk] at hhints
  simp only [Message.receiptId, Message.marker, Message.markedId, Message.markedThread,
    Message.isReplace, Message.replaceId, Message.core_mk] at hrm hmk hrep
  subst hfw
  subst hmam
  subst hcarb
  rw [knownFieldsAgree]
  refine ⟨decoded_typ c, ?_, ?_, decoded_state c hext, decoded_attention c hext,
    decoded_body c hext, decoded_subject c hext, decoded_thread c hext,
    decoded_xhtml c hext hxh, decoded_receiptId c hext,
    decoded_receiptRequested c hext, ?_, ?_, ?_, decoded_mucDirect c hdir,
    decoded_hints c hext hhints, ?_, decoded_marker c hext hrm,
    decoded_markedId c hext hrm hmk, decoded_markedThread c hext hrm hmk,
    ?_, decoded_replaceId c hext hrep, decoded_sFrom c, decoded_sTo c,
    decoded_sId c, decoded_sLang c, ?_, ?_, ?_⟩
  · exact (decoded_stamp c hext hdir hmucP hmucR hnone hleg).trans rfl
  · exact decoded_stampType c hext hdir hmucP hmucR hnone hleg
  · exact decoded_mucJid c hext hdir hmucP hmucR hnone hleg
  · exact decoded_mucPassword c hext hdir hmucP hmucR hnone hleg
  · exact decoded_mucReason c hext hdir hmucP hmucR hnone hleg
  · exact decoded_markable c hext
  · exact decoded_isReplace c hext
  · exact (decoded_forwardedM c hext).trans rfl
  · exact (decoded_mamM c hext).trans rfl
  · exact (decoded_carbonM c hext).trans rfl


end QXmpp

namespace QXmpp

/-- A fully specified sample record used by concrete witnesses. -/
def sampleCore : MessageCore where
  typ := .groupchat
  stamp := some 1500
  stampType := .delayedDelivery
  state := .composing
  attentionRequested := true
  body := "hello"
  subject := "subj"
  thread := "th"
  xhtml := "<p>x</p>"
  receiptId := "r9"
  receiptRequested := true
  mucInvitationJid := "room@conf"
  mucInvitationPassword := "pw"
  mucInvitationReason := "re"
  mucInvitationDirect := true
  hints := [.noStore, .noCopy]
  markable := true
  marker := .displayed
  markedId := "mid"
  markedThread := "mth"
  replace := true
  replaceId := "old1"
  sFrom := "a@x"
  sTo := "b@y"
  sId := "i1"
  sLang := "en"
  extensions := []

def sampleMessage : Message := .mk sampleCore none none none

/-- The same record with the indirect MUC-invitation form selected. -/
def indirectInviteMessage : Message :=
  .mk { sampleCore with mucInvitationDirect := false } none none none

theorem c1_witness :
    knownFieldsAgree (decodeMessage (some sampleMessage.toXml)) sampleMessage :=
  c1_roundtrip_known_fields sampleMessage rfl rfl rfl rfl rfl
    (fun h => absurd h (by decide)) (fun h => absurd h (by decide))
    (by decide) (fun h => absurd h (by decide))
    (fun t ht hl => absurd hl (by decide))
    (by decide) (Or.inr (by decide)) (fun h => absurd h (by decide))
    (fun h => absurd h (by decide))

theorem c1_counterexample :
    indirectInviteMessage.extensions = []
      ∧ (decodeMessage (some indirectInviteMessage.toXml)).mucInvitationJid = ""
      ∧ indirectInviteMessage.mucInvitationJid = "room@conf"
      ∧ (decodeMessage (some indirectInviteMessage.toXml)).mucInvitationJid
          ≠ indirectInviteMessage.mucInvitationJid := by
  refine ⟨rfl, by decide, rfl, by decide⟩

def forwardChain3 : Message :=
  defaultMessage.setForwarded
    (defaultMessage.setForwarded (defaultMessage.setForwarded defaultMessage))

theorem c2_encoder_drops_nested :
    forwardChain3.hasForwarded = true
      ∧ (forwardChain3.toXml).children = []
      ∧ ((defaultMessage.setMaMMessage defaultMessage).toXml).children = []
      ∧ ((defaultMessage.setMessagecarbon defaultMessage).toXml).children = [] :=
  ⟨rfl, rfl, rfl, rfl⟩

/-- The catch-all predicate: which children end up in the extension list. -/
def extCaptured (x : XElem) : Bool :=
  if x.tag == "x" then
    !(x.ns == ns_legacy_delayed_delivery) && !(x.ns == ns_conference)
  else
    !(knownMessageSubelems.contains (x.tag, x.ns)
      || knownMessageSubelems.contains (x.tag, ""))

theorem catchStep_exts (s : ParseTail) (x : XElem) :
    (catchStep s x).exts = s.exts ++ (if extCaptured x then [x] else []) := by
  simp only [catchStep, extCaptured]
  by_cases h1 : (x.tag == "x") = true <;>
    by_cases h2 : (x.ns == ns_legacy_delayed_delivery) = true <;>
    by_cases h3 : (x.ns == ns_conference) = true <;>
    by_cases h4 : (knownMessageSubelems.contains (x.tag, x.ns)
      || knownMessageSubelems.contains (x.tag, "")) = true <;>
    by_cases h5 : s.stamp.isNone = true <;>
    simp_all <;> tauto

theorem catchAll_exts (l : List XElem) (s : ParseTail) :
    (catchAll l s).exts = s.exts ++ l.filter extCaptured := by
  induction l generalizing s with
  | nil => simp [catchAll]
  | cons x xs ih =>
    rw [catchAll, List.foldl_cons]
    rw [show List.foldl catchStep (catchStep s x) xs = catchAll xs (catchStep s x) from rfl]
    rw [ih, catchStep_exts]
    by_cases hc : extCaptured x <;> simp [hc, List.filter_cons]

theorem c6_extensions_filter (e : XElem) :
    (decodeMessage (some e)).extensions = e.children.filter extCaptured := by
  rw [decodeMessage, parseMessage]
  simp only [parseF, Message.extensions, Message.core_mk]
  rw [catchAll_exts]
  simp [childrenO]

def markableElem : XElem := .mk "markable" ns_chat_markers [] [] ""

def c6input : XElem := .mk "message" "" [] [markableElem] ""

theorem c6_counterexample :
    (decodeMessage (some c6input)).isMarkable = true
      ∧ (decodeMessage (some c6input)).extensions = [markableElem] :=
  ⟨by decide, rfl⟩

theorem c9_decode_default_vs_construction (oe : Option XElem)
    (h : attrO oe "type"
      ∉ (["error", "normal", "chat", "groupchat", "headline"] : List String)) :
    (decodeMessage oe).typ = MsgType.normal ∧ defaultMessage.typ = MsgType.chat := by
  refine ⟨?_, rfl⟩
  simp only [List.mem_cons, List.mem_singleton, not_or] at h
  obtain ⟨h1, h2, h3, h4, h5, -⟩ := h
  simp [decodeMessage, parseMessage, parseF, Message.typ, typeFromString, h1, h2, h3, h4, h5]

theorem c9_witness :
    (decodeMessage none).typ = MsgType.normal ∧ defaultMessage.typ = MsgType.chat :=
  c9_decode_default_vs_construction none (by decide)

theorem c10_absent_nested_defaults (m : Message) :
    (m.forwardedM = none → m.forwarded = defaultMessage ∧ m.hasForwarded = false)
      ∧ (m.mamM = none → m.mamMessage = defaultMessage ∧ m.hasMaMMessage = false)
      ∧ (m.carbonM = none → m.carbonMessage = defaultMessage
          ∧ m.hasMessageCarbon = false) := by
  obtain ⟨c, fw, mam, carb⟩ := m
  refine ⟨fun h => ?_, fun h => ?_, fun h => ?_⟩ <;>
    simp_all [Message.forwarded, Message.hasForwarded, Message.mamMessage,
      Message.hasMaMMessage, Message.carbonMessage, Message.hasMessageCarbon,
      Message.forwardedM_mk, Message.mamM_mk, Message.carbonM_mk]

theorem c10_witness :
    (defaultMessage.forwarded = defaultMessage ∧ defaultMessage.hasForwarded = false)
      ∧ (defaultMessage.mamMessage = defaultMessage
          ∧ defaultMessage.hasMaMMessage = false)
      ∧ (defaultMessage.carbonMessage = defaultMessage
          ∧ defaultMessage.hasMessageCarbon = false) :=
  ⟨(c10_absent_nested_defaults defaultMessage).1 rfl,
    (c10_absent_nested_defaults defaultMessage).2.1 rfl,
    (c10_absent_nested_defaults defaultMessage).2.2 rfl⟩

end QXmpp

namespace QXmpp

def fwdMsgElem : XElem := .mk "message" "" [] [] ""

def fwdElem : XElem := .mk "forwarded" ns_stanza_forwarding [] [fwdMsgElem] ""

def rcvCarb : XElem := .mk "received" ns_message_carbons [] [fwdElem] ""

def rcvRcpt : XElem := .mk "received" ns_message_receipts [("id", "ack1")] [] ""

/-- "received" in the carbons namespace first in document order. -/
def c3input : XElem := .mk "message" "" [] [rcvCarb, rcvRcpt] ""

/-- "received" in the receipts namespace first in document order. -/
def c3winput : XElem := .mk "message" "" [] [rcvRcpt, rcvCarb] ""

theorem c3_first_received_decides (e r : XElem)
    (hfirst : fce (some e) "received" = some r)
    (hsent : fce (some e) "sent" = none) :
    (r.ns = ns_message_receipts → (decodeMessage (some e)).carbonM = none)
    ∧ (r.ns = ns_message_carbons → (decodeMessage (some e)).receiptId = "") := by
  constructor
  · intro hns
    rw [decodeMessage, parseMessage]
    simp only [parseF, Message.carbonM_mk]
    simp only [hfirst, hsent, nsO, hns]
    simp [defaultMessage, ns_message_receipts, ns_message_carbons]
  · intro hns
    rw [decodeMessage, parseMessage]
    simp only [parseF, Message.receiptId, Message.core_mk]
    simp only [hfirst, nsO, hns]
    simp [ns_message_receipts, ns_message_carbons]

theorem c3_counterexample :
    (decodeMessage (some c3input)).receiptId = ""
      ∧ (decodeMessage (some c3input)).receiptId ≠ "ack1"
      ∧ (decodeMessage (some c3input)).carbonM.isSome = true := by
  refine ⟨by decide, by decide, by decide⟩

theorem c3_witness :
    (rcvRcpt.ns = ns_message_receipts →
        (decodeMessage (some c3winput)).carbonM = none)
      ∧ (rcvRcpt.ns = ns_message_carbons →
        (decodeMessage (some c3winput)).receiptId = "") :=
  c3_first_received_decides c3winput rcvRcpt (by rfl) (by rfl)

theorem c4_standard_timestamp_precedence (e d : XElem) (t : Nat)
    (hdel : fce (some e) "delay" = some d)
    (hns : d.ns = ns_delayed_delivery)
    (hstamp : datetimeFromString (d.attr "stamp") = some t) :
    (decodeMessage (some e)).stamp = some t
      ∧ (decodeMessage (some e)).stampType = StampType.delayedDelivery := by
  constructor
  · rw [decodeMessage, parseMessage]
    simp only [parseF, Message.stamp, Message.core_mk]
    simp only [hdel, nsO, hns, Option.isSome_some, Bool.true_and, beq_self_eq_true,
      if_true, attrO, hstamp]
    exact (catchAll_stamp_some rfl).1
  · rw [decodeMessage, parseMessage]
    simp only [parseF, Message.stampType, Message.core_mk]
    simp only [hdel, nsO, hns, Option.isSome_some, Bool.true_and, beq_self_eq_true,
      if_true, attrO, hstamp]
    exact (catchAll_stamp_some rfl).2

def delayBad : XElem := .mk "delay" ns_delayed_delivery [("stamp", "zz")] [] ""

def delayGood : XElem := .mk "delay" ns_delayed_delivery [("stamp", "1500")] [] ""

def legacyX : XElem := .mk "x" ns_legacy_delayed_delivery [("stamp", "7")] [] ""

def c4input : XElem := .mk "message" "" [] [delayBad, legacyX] ""

def c4winput : XElem := .mk "message" "" [] [delayGood, legacyX] ""

theorem c4_counterexample :
    (decodeMessage (some c4input)).stampType = StampType.legacyDelayedDelivery
      ∧ (decodeMessage (some c4input)).stamp = some 7000 := by
  refine ⟨by decide, by decide⟩

theorem c4_witness :
    (decodeMessage (some c4winput)).stamp = some 1500
      ∧ (decodeMessage (some c4winput)).stampType = StampType.delayedDelivery :=
  c4_standard_timestamp_precedence c4winput delayGood 1500 (by rfl) rfl (by rfl)

theorem find?_msg_body_replace (c : MessageCore) (hb : c.body = "")
    (hr : c.replace = true) :
    List.find? (fun x => x.tag == "body") (msgChildren c)
      = some (textElem "body" "") := by
  rw [msgChildren, hb]
  simp only [List.append_assoc]
  rw [find?_optionalElem_neg _ _ (by rfl)]
  rw [find?_optionalElem_pos _ _ (by rfl)]
  simp only [bne_self_eq_false, if_false]
  rw [find?_optionalElem_neg _ _ (by rfl)]
  rw [skip_stateElems _ (by decide)]
  rw [find?_optionalElem_neg _ _ (by rfl)]
  rw [skip_stampElems _ (by decide)]
  rw [find?_optionalElem_neg _ _ (by rfl)]
  rw [find?_optionalElem_neg _ _ (by rfl)]
  rw [find?_optionalElem_neg _ _ (by rfl)]
  rw [skip_mucElems _ (by decide)]
  rw [skip_hintsMap _ (by decide)]
  rw [find?_optionalElem_neg _ _ (by rfl)]
  rw [skip_markerElems _ (by decide)]
  rw [find?_optionalElem_pos _ _ (by rfl)]
  simp [hr]

theorem c5_empty_body_correction (m : Message) (hb : m.body = "")
    (hr : m.isReplace = true) :
    textElem "body" "" ∈ (m.toXml).children
      ∧ (decodeMessage (some m.toXml)).body = "" := by
  obtain ⟨c, fw, mam, cb⟩ := m
  simp only [Message.body, Message.core_mk] at hb
  simp only [Message.isReplace, Message.core_mk] at hr
  constructor
  · simp only [Message.toXml, Message.core_mk]
    simp [msgChildren, optionalElem, hb, hr]
  · rw [decodeMessage, parseMessage]
    simp only [Message.toXml, Message.core_mk]
    simp only [parseF, Message.body, Message.core_mk]
    rw [fce_msg c "body", find?_msg_body_replace c hb hr]
    rfl

/-- A correction record with an empty body. -/
def emptyCorrection : Message :=
  .mk { defaultCore with replace := true } none none none

theorem c5_witness :
    textElem "body" "" ∈ (emptyCorrection.toXml).children
      ∧ (decodeMessage (some emptyCorrection.toXml)).body = "" :=
  c5_empty_body_correction emptyCorrection rfl rfl

theorem string_append_qxmpp_ne_empty (s : String) : ("qxmpp" ++ s) ≠ "" := by
  intro h
  have hl := congrArg String.length h
  rw [String.length_append] at hl
  have h5 : "qxmpp".length = 5 := rfl
  have h0 : "".length = 0 := rfl
  rw [h5, h0] at hl
  omega

theorem c7_receipt_request_id_idempotent (m : Message) (ctr : Nat)
    (hid : m.sId = "") :
    (m.setReceiptRequested true ctr).1.sId ≠ ""
      ∧ (m.setReceiptRequested true ctr).1.setReceiptRequested true
          (m.setReceiptRequested true ctr).2
        = m.setReceiptRequested true ctr := by
  obtain ⟨c, fw, mam, cb⟩ := m
  simp only [Message.sId, Message.core_mk] at hid
  simp only [Message.setReceiptRequested, Message.sId, Message.core_mk, hid,
    generateAndSetNextId]
  simp only [beq_self_eq_true, Bool.and_self, if_true, Bool.true_and]
  refine ⟨string_append_qxmpp_ne_empty _, ?_⟩
  have hne : (("qxmpp" ++ natToStr ctr) == "") = false := by
    exact beq_eq_false_iff_ne.mpr (string_append_qxmpp_ne_empty _)
  simp [hne]

theorem c7_witness :
    (defaultMessage.setReceiptRequested true 0).1.sId ≠ ""
      ∧ (defaultMessage.setReceiptRequested true 0).1.setReceiptRequested true
          (defaultMessage.setReceiptRequested true 0).2
        = defaultMessage.setReceiptRequested true 0 :=
  c7_receipt_request_id_idempotent defaultMessage 0 rfl

theorem XElem.weight_pos (e : XElem) : 0 < e.weight := by
  cases e
  simp [XElem.weight]

theorem c8_missing_message_child (e : XElem)
    (hns : e.ns = ns_stanza_forwarding)
    (hmsg : fce (some e) "message" = none)
    (hdel : fce (some e) "delay" = none) :
    parseForwardE (some e)
      = Message.mk { defaultCore with typ := MsgType.normal } none none none := by
  obtain ⟨j, hj⟩ : ∃ j, 2 * sizeO (some e) = j + 1 + 1 := by
    have := XElem.weight_pos e
    exact ⟨2 * sizeO (some e) - 2, by simp [sizeO]; omega⟩
  rw [parseForwardE, hj]
  simp only [parseForwardF, nsO, hns, Option.isSome_some, Bool.true_and,
    beq_self_eq_true, if_true, hmsg, hdel]
  simp only [parseF]
  simp [fce, attrO, nsO, textO, childrenO, chatStateScan, markerScan, hintScan,
    catchAll, typeFromString, defaultMessage, defaultCore, ns_attention,
    ns_message_receipts]

def c8input : XElem := .mk "forwarded" ns_stanza_forwarding [] [] ""

theorem c8_counterexample :
    (parseForwardE (some c8input)).typ = MsgType.normal
      ∧ defaultMessage.typ = MsgType.chat
      ∧ parseForwardE (some c8input) ≠ defaultMessage := by
  refine ⟨by decide, rfl, fun h => ?_⟩
  have h1 : (parseForwardE (some c8input)).typ = MsgType.normal := by decide
  rw [h] at h1
  exact absurd h1 (by decide)

theorem c8_witness :
    parseForwardE (some c8input)
      = Message.mk { defaultCore with typ := MsgType.normal } none none none :=
  c8_missing_message_child c8input rfl rfl rfl

end QXmpp
